import Mathlib

/-!
Verification development for the DING desktop-widget subsystem of the
Linexin source tree.  The JavaScript sources are shallowly embedded as
Lean definitions: the custom `ding-widget` URI scheme handler, the
widget registry scan, the per-instance HTML widget host, the widget
manager state persistence, and the web widget context (message dispatch
and the preferences-window lifecycle).  JavaScript strings are Lean
strings, JS `null`/`undefined` are `Option.none`, mutable objects are
records threaded through explicit state passing, and the single
GTK/WebKit event loop makes every handler a sequential function.
-/

namespace Ding

/-! ## JavaScript basics -/

/-- Truthiness of a JS string-or-nullish value: `null`, `undefined` and
the empty string are falsy. -/
def jsFalsyS : Option String → Bool
  | none => true
  | some s => s == ""

/-! ## Character-level string utilities

The GLib path helpers used by the scheme handler are modelled at the
character level so that every definition is executable and
kernel-reducible. -/

/-- Split a character list at a separator character; empty segments are
kept (they are filtered by the callers, matching
`split('/').filter(p => p.length > 0)` and GLib canonicalization). -/
def splitCharsAux (sep : Char) : List Char → List Char → List String
  | [], acc => [String.mk acc.reverse]
  | c :: rest, acc =>
    if c == sep then String.mk acc.reverse :: splitCharsAux sep rest []
    else splitCharsAux sep rest (c :: acc)

def splitOnCharKeep (sep : Char) (s : String) : List String :=
  splitCharsAux sep s.data []

/-- Path components of a string: split on `/`, dropping empty segments. -/
def splitPath (s : String) : List String :=
  (splitOnCharKeep '/' s).filter (fun c => !(c == ""))

/-- Model of the regex replace `^(\.\/)+` → `""`: drop leading literal
`./` pairs. -/
def dropDotSlashes : List Char → List Char
  | '.' :: '/' :: rest => dropDotSlashes rest
  | l => l

/-- Path normalization performed by the scheme handler: strip leading
slashes (`^\/+`), then leading `./` segments (`^(\.\/)+`). -/
def normalizeRelPath (p : String) : String :=
  String.mk (dropDotSlashes (p.data.dropWhile (fun c => c == '/')))

/-- One step of lexical canonicalization: `.` is dropped, `..` pops the
last component (a no-op at the root, as in `g_canonicalize_filename`),
anything else is appended. -/
def lexCanonStep (acc : List String) (c : String) : List String :=
  if c == "." then acc
  else if c == ".." then acc.dropLast
  else acc ++ [c]

/-- Lexical canonicalization of an absolute path's components, the
component-level content of `GLib.canonicalize_filename` (which is purely
lexical: it does not consult the filesystem). -/
def lexCanon (cs : List String) : List String :=
  cs.foldl lexCanonStep []

def joinSlash : List String → String
  | [] => ""
  | [c] => c
  | c :: rest => c ++ "/" ++ joinSlash rest

/-- Render canonical components back to an absolute path string. -/
def renderAbs (cs : List String) : String :=
  "/" ++ joinSlash cs

/-- Model of `GLib.canonicalize_filename(p, null)` for absolute paths. -/
def canonAbs (p : String) : String :=
  renderAbs (lexCanon (splitPath p))

/-- Model of JS `String.startsWith` / a leading-substring test. -/
def strBegins (lead s : String) : Bool :=
  lead.data.isPrefixOf s.data

/-- Model of JS `String.endsWith`. -/
def strEnds (tail s : String) : Bool :=
  tail.data.isSuffixOf s.data

/-! ## The `ding-widget://` URI scheme handler

Embedding of `_onDingWidgetUriRequestAsync` (WebWidgetContext).  The
WebKit request is modelled by its parsed URI and the requesting
WebView's `_dingWidgetRoot`/`_dingInstanceId` bindings; the environment
carries the registry's instance-root map, an abstract filesystem, and
the MIME guesser.  The handler returns the finished outcome together
with the list of file read attempts it performed. -/

structure StatInfo where
  isSymlink : Bool
deriving DecidableEq

/-- Abstract filesystem: `stat` models `query_info` with
`NOFOLLOW_SYMLINKS` (`none` = the query raised), `readBytes` models
`load_bytes_async` (`none` = the load raised). -/
structure FsModel where
  stat : List String → Option StatInfo
  readBytes : List String → Option (List Nat)

structure WebViewBind where
  rootPath : Option String
  instanceId : Option String
deriving DecidableEq

structure UriParts where
  scheme : String
  host : String
  path : String
deriving DecidableEq

structure SchemeRequest where
  uri : Option UriParts
  webView : WebViewBind
deriving DecidableEq

structure SchemeEnv where
  instanceRoots : String → Option String
  fs : FsModel
  mimeGuess : String → Option String
  cspString : Option String

inductive GioIOErr where
  | invalidArgument
  | permissionDenied
  | notFound
  | failed
deriving DecidableEq

inductive SchemeOutcome where
  | finishedError (code : GioIOErr) (message : String)
  | finishedResponse (mimeType : String) (bytes : List Nat) (csp : Option String)
deriving DecidableEq

inductive WalkOutcome where
  | ok
  | symlinkFound
  | queryFailed
deriving DecidableEq

/-- The component-by-component symlink walk of the handler: for each
path part, `query_info(NOFOLLOW_SYMLINKS)`; a failed query raises (the
surrounding catch turns the whole walk into NOT_FOUND), a symlink
component aborts with PERMISSION_DENIED. -/
def symlinkWalk (fs : FsModel) (cur : List String) : List String → WalkOutcome
  | [] => .ok
  | part :: rest =>
    let next := cur ++ [part]
    match fs.stat next with
    | none => .queryFailed
    | some info =>
      if info.isSymlink then .symlinkFound else symlinkWalk fs next rest

/-- MIME forcing by extension after `Gio.content_type_guess`. -/
def forceMime (filePathForMime : String) (guessed : Option String) : String :=
  if strEnds ".html" filePathForMime || strEnds ".htm" filePathForMime then
    "text/html"
  else if strEnds ".css" filePathForMime then "text/css"
  else if strEnds ".js" filePathForMime then "application/javascript"
  else
    match guessed with
    | some m => m
    | none => "application/octet-stream"

/-- The lexical confinement test of the handler: canonicalize the
candidate (`build_filenamev([rootPath, effectiveRelPath])`) and the
root, and require the canonical candidate to start with the canonical
root followed by a separator.  `escapesRoot` is the failure of that
test. -/
def escapesRoot (rootPath relPath : String) : Bool :=
  let canonRoot := canonAbs rootPath
  let canonFile := canonAbs (rootPath ++ "/" ++ relPath)
  let normalizedRoot :=
    if strEnds "/" canonRoot then canonRoot else canonRoot ++ "/"
  !(strBegins normalizedRoot canonFile)

/-- Embedding of `_onDingWidgetUriRequestAsync`.  Returns the finished
outcome and the list of file paths on which a byte load was attempted. -/
def dingWidgetUriRequest (env : SchemeEnv) (req : SchemeRequest) :
    SchemeOutcome × List (List String) :=
  match req.uri with
  | none => (.finishedError .invalidArgument "Missing URI", [])
  | some guri =>
    if ¬ guri.scheme = "ding-widget" then
      (.finishedError .invalidArgument "Unexpected URI scheme", [])
    else
      -- instanceId := guri.get_host()
      if guri.host = "" then
        (.finishedError .invalidArgument "Missing instanceId in widget URI", [])
      else if req.webView.rootPath = none ∨
          ¬ req.webView.instanceId = some guri.host then
        (.finishedError .permissionDenied "Widget root not bound to this view", [])
      else
        match env.instanceRoots guri.host with
        | none =>
          (.finishedError .notFound "Widget root not registered for this instance", [])
        | some rootPath =>
          if ¬ req.webView.rootPath = some rootPath then
            (.finishedError .permissionDenied "Widget root mismatch for this view", [])
          else
            let effectiveRelPath := normalizeRelPath guri.path
            if effectiveRelPath = "" then
              (.finishedError .notFound "No file specified", [])
            else if escapesRoot rootPath effectiveRelPath then
              (.finishedError .permissionDenied "Path escapes widget root", [])
            else
              let rootComps := splitPath rootPath
              let parts := splitPath effectiveRelPath
              match symlinkWalk env.fs rootComps parts with
              | .symlinkFound =>
                (.finishedError .permissionDenied
                  "Symlinks are not allowed in widget paths", [])
              | .queryFailed =>
                (.finishedError .notFound "File not found in widget root", [])
              | .ok =>
                let filePath := rootComps ++ parts
                match env.fs.readBytes filePath with
                | none =>
                  (.finishedError .notFound "File not found in widget root",
                    [filePath])
                | some bytes =>
                  let filePathForMime := rootPath ++ "/" ++ joinSlash parts
                  let mimeType :=
                    forceMime filePathForMime (env.mimeGuess filePathForMime)
                  (.finishedResponse mimeType bytes env.cspString, [filePath])

/-- Helper: does the stat of a path report a symlink. -/
def statIsSymlink (fs : FsModel) (p : List String) : Bool :=
  match fs.stat p with
  | some info => info.isSymlink
  | none => false

/-! ## Widget registry (widgetRegistry.js)

`_loadOnceAsync` scans the user root and then each system root; every
discovered `widget.json` manifest flows through the body of
`_scanRootAsync`'s inner loop.  The scan is modelled as a fold over the
discovered manifests in discovery order, each tagged with the scope of
the root it came from. -/

/-- One discovered manifest: the raw `id` field (`none` models a missing
or non-string `id`), the scope of the root it was found under, and the
bundle directory / version as identifying payload. -/
structure ScanManifest where
  id : Option String
  isUser : Bool
  dirPath : String
  version : String
deriving DecidableEq

structure WidgetDescriptor where
  id : String
  isUser : Bool
  dirPath : String
  version : String
deriving DecidableEq

/-- Model of JS `String.trim` for the whitespace that can occur in a
manifest id field. -/
def isWsChar (c : Char) : Bool :=
  c == ' ' || c == '\t' || c == '\n' || c == '\r'

def jsTrim (s : String) : String :=
  String.mk (((s.data.dropWhile isWsChar).reverse.dropWhile isWsChar).reverse)

/-- One character of the id pattern `[A-Za-z0-9._-]`. -/
def isIdChar (c : Char) : Bool :=
  c.isAlpha || c.isDigit || c == '.' || c == '_' || c == '-'

/-- `!!idRaw && /^[A-Za-z0-9._-]+$/.test(idRaw)`. -/
def validWidgetId (s : String) : Bool :=
  !(s == "") && s.data.all isIdChar

/-- The validated id of a manifest (`none` = entry is rejected and
skipped): the `id` field must be a string whose trim is non-empty and
matches the pattern. -/
def manifestValidId (m : ScanManifest) : Option String :=
  match m.id with
  | none => none
  | some raw =>
    let t := jsTrim raw
    if validWidgetId t then some t else none

/-- JS `Map` as an insertion-ordered association list: `set` updates the
entry in place when the key exists, else appends. -/
def mapSet {α : Type} : List (String × α) → String → α → List (String × α)
  | [], k, v => [(k, v)]
  | kv :: m, k, v =>
    if kv.fst == k then (k, v) :: m else kv :: mapSet m k v

def mapGet {α : Type} : List (String × α) → String → Option α
  | [], _ => none
  | kv :: m, k => if kv.fst == k then some kv.snd else mapGet m k

/-- Scan accumulator: the descriptor map under construction
(`newMap`), the `_loggedDuplicateIds` set, and the sequence of emitted
duplicate-id warnings (recorded by duplicated id). -/
structure ScanState where
  widgets : List (String × WidgetDescriptor)
  loggedDuplicateIds : List String
  dupWarnings : List String
deriving DecidableEq

def descOfManifest (id : String) (e : ScanManifest) : WidgetDescriptor :=
  ⟨id, e.isUser, e.dirPath, e.version⟩

/-- `_logDuplicateIds`: warn once per duplicated id, guarded by the
`_loggedDuplicateIds` set. -/
def logDuplicateIds (st : ScanState) (id : String) : ScanState :=
  if st.loggedDuplicateIds.contains id then st
  else
    { st with
      dupWarnings := st.dupWarnings ++ [id],
      loggedDuplicateIds := st.loggedDuplicateIds ++ [id] }

/-- The body of `_scanRootAsync`'s per-manifest loop: validate the id,
then resolve duplicates (keep the existing entry unless the new one is
user-scoped and the existing one is not), logging each duplicated id
once. -/
def processManifest (st : ScanState) (e : ScanManifest) : ScanState :=
  match manifestValidId e with
  | none => st
  | some id =>
    let desc := descOfManifest id e
    match mapGet st.widgets id with
    | some existing =>
      let replace := e.isUser && !existing.isUser
      let st1 := logDuplicateIds st id
      { st1 with
        widgets := if replace then mapSet st1.widgets id desc else st1.widgets }
    | none => { st with widgets := mapSet st.widgets id desc }

/-- `_loadOnceAsync` over a fixed discovery order (user root first, then
system roots; the fold is order-generic so claims about arbitrary
discovery orders can be stated). -/
def scanAll (entries : List ScanManifest) : ScanState :=
  entries.foldl processManifest ⟨[], [], []⟩

/-- `listWidgets()` after the load: the values of the descriptor map. -/
def listWidgets (st : ScanState) : List WidgetDescriptor :=
  st.widgets.map Prod.snd

/-! Specification-side definitions for claim C3 (translated from the
spec's words, to be compared with the scan fold): the expected winner
for an id is the first user-scoped discovered entry with that id, and
otherwise the first discovered entry with that id. -/

def entriesForId (es : List ScanManifest) (x : String) : List ScanManifest :=
  es.filter (fun e => manifestValidId e == some x)

/-- Modelled from the spec: first user-scoped entry if any, else the
first entry. -/
def winnerOf : List ScanManifest → Option ScanManifest
  | [] => none
  | a :: t =>
    if a.isUser then some a
    else
      match winnerOf t with
      | some w => if w.isUser then some w else some a
      | none => some a

/-- Modelled from the spec: the descriptor `listWidgets` should keep for
id `x` after scanning `es`. -/
def specWinner (es : List ScanManifest) (x : String) : Option WidgetDescriptor :=
  (winnerOf (entriesForId es x)).map (descOfManifest x)

/-- Modelled from the spec: number of collision warnings expected for an
id — one exactly when the id was discovered at least twice. -/
def specDupWarnings (es : List ScanManifest) (x : String) : Nat :=
  if 2 ≤ (entriesForId es x).length then 1 else 0

/-! ## HTML widget host (HtmlWidgetHost)

One host wraps one WebKit surface for one instance.  The surface, the
GTK frame and the URI it navigated to are modelled by option fields;
every script evaluated on the surface (host-state patches and
postMessage calls) is recorded in `delivered`, which models what the
widget content observes. -/

/-- A widget instance configuration: an opaque plain JSON object,
modelled as a key/value list.  JS objects are always truthy, so
`config || {}` is the identity on this type. -/
abbrev Config := List (String × String)

/-- A host-state patch (`{selected}`, `{reducedMotion}`, `{editMode}`,
`{theme}`, or the full snapshot). -/
structure HostStatePatch where
  editMode : Option Bool
  selected : Option Bool
  theme : Option String
  reducedMotion : Option Bool
  direction : Option String
  locale : Option String
deriving DecidableEq

/-- An empty patch to extend with structure-update syntax. -/
def emptyPatch : HostStatePatch :=
  ⟨none, none, none, none, none, none⟩

/-- Downward host→widget messages sent through `postMessage`. -/
inductive DownMsg where
  | configChanged (instanceId : String) (config : Config) (reason : String)
      (sourceMode : Option String)
  | getConfigReply (requestId : Option String) (config : Config)
deriving DecidableEq

inductive HostEvent where
  | patchEv (p : HostStatePatch)
  | msgEv (m : DownMsg)
deriving DecidableEq

inductive JsError where
  | typeError
deriving DecidableEq

structure HWHost where
  instanceId : String
  widgetId : String
  mode : String
  prefsUri : Option String
  destroyed : Bool
  frame : Option Unit
  webView : Option Unit
  uri : Option String
  fallbackReason : Option String
  pendingPatches : List HostStatePatch
  pendingMsgs : List DownMsg
  delivered : List HostEvent
deriving DecidableEq

/-- The constructor: `_makeGtkWidget` runs synchronously (the frame
exists at once), `_start` is asynchronous (no web view yet). -/
def mkHtmlWidgetHost (instanceId widgetId mode : String)
    (prefsUri : Option String) : HWHost :=
  { instanceId := instanceId
    widgetId := widgetId
    mode := if mode == "prefs" then "prefs" else "widget"
    prefsUri := prefsUri
    destroyed := false
    frame := some ()
    webView := none
    uri := none
    fallbackReason := none
    pendingPatches := []
    pendingMsgs := []
    delivered := [] }

/-- `_evaluateScript`: a no-op on a destroyed host or before the web
view exists; otherwise the script reaches the surface. -/
def evaluateScriptEvent (h : HWHost) (ev : HostEvent) : HWHost :=
  if h.destroyed || h.webView.isNone then h
  else { h with delivered := h.delivered ++ [ev] }

def sendHostStatePatch (h : HWHost) (p : HostStatePatch) : HWHost :=
  evaluateScriptEvent h (.patchEv p)

def sendPostMessage (h : HWHost) (m : DownMsg) : HWHost :=
  evaluateScriptEvent h (.msgEv m)

/-- `setHostStatePatch(patch)`: drop non-objects; queue while destroyed
or before the surface exists; otherwise deliver immediately. -/
def hostSetHostStatePatch (h : HWHost) (patch : Option HostStatePatch) : HWHost :=
  match patch with
  | none => h
  | some p =>
    if h.destroyed || h.webView.isNone then
      { h with pendingPatches := h.pendingPatches ++ [p] }
    else sendHostStatePatch h p

/-- `postMessage(msg)`: same queue-or-deliver discipline. -/
def hostPostMessage (h : HWHost) (msg : Option DownMsg) : HWHost :=
  match msg with
  | none => h
  | some m =>
    if h.destroyed || h.webView.isNone then
      { h with pendingMsgs := h.pendingMsgs ++ [m] }
    else sendPostMessage h m

def flushPendingHostStatePatches (h : HWHost) : HWHost :=
  { h.pendingPatches.foldl sendHostStatePatch h with pendingPatches := [] }

def flushPendingMessages (h : HWHost) : HWHost :=
  { h.pendingMsgs.foldl sendPostMessage h with pendingMsgs := [] }

/-- The tail of `_start` once `_makeWebView`/`_makeUrl` have resolved
with a live web view: record the surface, load the URL (or the
"widget unavailable" fallback), then flush patches, then messages. -/
def hostBecomeReady (h : HWHost) (url : Option String) : HWHost :=
  let h1 := { h with webView := some () }
  let h2 :=
    match url with
    | some u => { h1 with uri := some u }
    | none => { h1 with fallbackReason := some "Missing entry/prefs URL" }
  flushPendingMessages (flushPendingHostStatePatches h2)

def isAlive (h : HWHost) : Bool :=
  !h.destroyed

/-- `destroy()`: sets the flag, then dereferences `_frame` and
`_webView`; on a null dereference the JS TypeError propagates, leaving
the partial state behind. -/
def destroyHost (h : HWHost) : HWHost × Option JsError :=
  let h1 := { h with destroyed := true }
  match h1.frame with
  | none => (h1, some .typeError)
  | some _ =>
    match h1.webView with
    | none => (h1, some .typeError)
    | some _ =>
      ({ h1 with webView := none, frame := none, pendingPatches := [] }, none)

/-! Call sequences for claim C5. -/

inductive HostCall where
  | patchCall (p : HostStatePatch)
  | msgCall (m : DownMsg)
deriving DecidableEq

def applyHostCall (h : HWHost) : HostCall → HWHost
  | .patchCall p => hostSetHostStatePatch h (some p)
  | .msgCall m => hostPostMessage h (some m)

def runHostCalls (h : HWHost) (calls : List HostCall) : HWHost :=
  calls.foldl applyHostCall h

def callEvent : HostCall → HostEvent
  | .patchCall p => .patchEv p
  | .msgCall m => .msgEv m

def patchesOf (calls : List HostCall) : List HostStatePatch :=
  calls.filterMap (fun c => match c with | .patchCall p => some p | _ => none)

def msgsOf (calls : List HostCall) : List DownMsg :=
  calls.filterMap (fun c => match c with | .msgCall m => some m | _ => none)

/-! ## Widget manager (widgetManager.js)

The manager owns the instance map (a JS `Map`, modelled as an
insertion-ordered list with unique `instanceId` keys), the per-monitor
surfaces, and selection.  GTK specifics (CSS classes, chrome buttons,
actual actor widgets) are modelled only as far as the claims observe
them: each surface carries the bottom-to-top `widgetInstanceId` tags of
its container children, which is exactly what
`_computeZIndexByInstanceId` reads. -/

structure WInstance where
  instanceId : String
  widgetId : String
  kind : String
  monitorIndex : Int
  normX : Rat
  normY : Rat
  width : Rat
  height : Rat
  config : Config
  prefsUri : Option String
  hasPreferences : Bool
  actor : Bool
  host : Option HWHost
  isAddButton : Bool
deriving DecidableEq

structure SurfaceModel where
  monitorIndex : Int
  children : List String
  onTop : Bool
deriving DecidableEq

structure Manager where
  instances : List WInstance
  selectedInstanceId : Option String
  suppressStateEvents : Bool
  showDesktopWidgets : Bool
  surfaces : List SurfaceModel
  darkmode : Bool
  globalAnimations : Bool
  envDirection : String
  envLocale : String
deriving DecidableEq

/-- One entry of the persisted `{version:1, instances:[...]}` document.
`none` models an absent or `null` field (the code only distinguishes
nullish from present via `??`). -/
structure StateEntry where
  instanceId : Option String
  widgetId : Option String
  kind : Option String
  monitorIndex : Option Int
  normX : Option Rat
  normY : Option Rat
  width : Option Rat
  height : Option Rat
  config : Option Config
  prefsUri : Option String
  hasPreferences : Option Bool
deriving DecidableEq

structure StateDoc where
  version : Option Int
  instances : Option (List StateEntry)
deriving DecidableEq

/-- The non-optional shape of one exported instance entry. -/
structure ExportEntry where
  instanceId : String
  widgetId : String
  monitorIndex : Int
  kind : String
  normX : Rat
  normY : Rat
  width : Rat
  height : Rat
  config : Config
  prefsUri : Option String
  hasPreferences : Bool
deriving DecidableEq

structure ExportDoc where
  version : Int
  instances : List ExportEntry
deriving DecidableEq

def getInstance (m : Manager) (instanceId : String) : Option WInstance :=
  m.instances.find? (fun i => i.instanceId == instanceId)

/-- The instance-id keys of an instance list, in order (the JS `Map`
key uniqueness invariant is stated as `Nodup` of this list). -/
def instKeys (l : List WInstance) : List String :=
  l.map (fun i => i.instanceId)

def findSurface (m : Manager) (monitorIndex : Int) : Option SurfaceModel :=
  m.surfaces.find? (fun s => s.monitorIndex == monitorIndex)

/-- `if (!instData.instanceId || !instData.widgetId) continue`. -/
def entryTruthyIds (e : StateEntry) : Bool :=
  !(jsFalsyS e.instanceId) && !(jsFalsyS e.widgetId)

/-- Update an existing live instance in place from a persisted entry
(the `??` defaults of `loadState`). -/
def updateFromEntry (i : WInstance) (e : StateEntry) : WInstance :=
  { i with
    widgetId := e.widgetId.getD ""
    monitorIndex := e.monitorIndex.getD 0
    kind := e.kind.getD "html"
    normX := e.normX.getD 0
    normY := e.normY.getD 0
    width := e.width.getD 200
    height := e.height.getD 150
    config := e.config.getD []
    prefsUri := e.prefsUri
    hasPreferences := e.hasPreferences.getD (!(jsFalsyS e.prefsUri)) }

/-- Build a fresh instance from a persisted entry (the create branch of
`loadState`; `actor: null`, no host, not an add button). -/
def freshFromEntry (e : StateEntry) : WInstance :=
  { instanceId := e.instanceId.getD ""
    widgetId := e.widgetId.getD ""
    monitorIndex := e.monitorIndex.getD 0
    kind := e.kind.getD "html"
    normX := e.normX.getD 0
    normY := e.normY.getD 0
    width := e.width.getD 200
    height := e.height.getD 150
    config := e.config.getD []
    prefsUri := e.prefsUri
    hasPreferences := e.hasPreferences.getD (!(jsFalsyS e.prefsUri))
    actor := false
    host := none
    isAddButton := false }

/-- The host `_createActorForInstance` builds for an html instance. -/
def mkWidgetHostFor (i : WInstance) : HWHost :=
  mkHtmlWidgetHost i.instanceId i.widgetId "widget" none

def setInstanceFields (m : Manager) (instanceId : String)
    (f : WInstance → WInstance) : Manager :=
  { m with
    instances :=
      m.instances.map (fun i => if i.instanceId == instanceId then f i else i) }

/-- Append an actor tag to the container children of the surface owning
the instance (what `widgetContainer.put` does on first attach). -/
def attachToSurface (m : Manager) (monitorIndex : Int) (tag : String) : Manager :=
  { m with
    surfaces :=
      m.surfaces.map fun s =>
        if s.monitorIndex == monitorIndex then
          { s with children := s.children ++ [tag] }
        else s }

def surfaceHasChild (m : Manager) (tag : String) : Bool :=
  m.surfaces.any (fun s => s.children.contains tag)

/-- `_ensureInstanceActor`: only when widgets are shown and the instance
has no actor yet; creates the actor and the per-instance host. -/
def ensureInstanceActor (m : Manager) (instanceId : String) : Manager :=
  if !m.showDesktopWidgets then m
  else
    match getInstance m instanceId with
    | none => m
    | some inst =>
      if inst.actor then m
      else
        setInstanceFields m instanceId fun i =>
          { i with actor := true, host := some (mkWidgetHostFor i) }

/-- `_positionInstanceActor`: attach the actor to its surface container
on first placement (`put` appends a child); later calls only `move` it,
which keeps the child order.  The suppressed `_stateChanged` call does
not alter the manager. -/
def positionInstanceActor (m : Manager) (instanceId : String) : Manager :=
  match getInstance m instanceId with
  | none => m
  | some inst =>
    if !inst.actor then m
    else
      match findSurface m inst.monitorIndex with
      | none => m
      | some _ =>
        if surfaceHasChild m instanceId then m
        else attachToSurface m inst.monitorIndex instanceId

/-- Per-entry body of the `loadState` loop: update or create, then
ensure and position the actor when the target monitor has a surface. -/
def applyStateEntry (m : Manager) (e : StateEntry) : Manager :=
  let iid := e.instanceId.getD ""
  let m1 :=
    match getInstance m iid with
    | some _ => setInstanceFields m iid (fun i => updateFromEntry i e)
    | none => { m with instances := m.instances ++ [freshFromEntry e] }
  match getInstance m1 iid with
  | none => m1
  | some inst =>
    match findSurface m1 inst.monitorIndex with
    | none => m1
    | some _ => positionInstanceActor (ensureInstanceActor m1 iid) iid

def detachFromSurfaces (m : Manager) (tag : String) : Manager :=
  { m with
    surfaces :=
      m.surfaces.map fun s =>
        { s with children := s.children.filter (fun c => !(c == tag)) } }

def deleteInstance (m : Manager) (instanceId : String) : Manager :=
  { m with
    instances := m.instances.filter (fun i => !(i.instanceId == instanceId)) }

/-- `_removeActor`: detach the actor, destroy the host (a TypeError from
the destroy propagates to the caller), destroy the actor, delete the
instance. -/
def removeActor (m : Manager) (instanceId : String) : Manager × Option JsError :=
  match getInstance m instanceId with
  | none => (m, none)
  | some inst =>
    let m1 := detachFromSurfaces m instanceId
    match inst.host with
    | some h =>
      let (h2, e) := destroyHost h
      let m2 := setInstanceFields m1 instanceId (fun i => { i with host := some h2 })
      match e with
      | some err => (m2, some err)
      | none => (deleteInstance m2 instanceId, none)
    | none => (deleteInstance m1 instanceId, none)

/-- The removal pass of `loadState` over a snapshot of the instance
keys: keep add buttons and seen ids, remove the rest.  An exception from
a host destroy aborts the pass. -/
def removeUnseenGo (seen : List String) :
    Manager → List String → Manager × Option JsError
  | m, [] => (m, none)
  | m, id :: rest =>
    match getInstance m id with
    | none =>
      if seen.contains id then removeUnseenGo seen m rest
      else
        match removeActor m id with
        | (m2, _) => removeUnseenGo seen m2 rest
    | some inst =>
      if inst.isAddButton then removeUnseenGo seen m rest
      else if seen.contains id then removeUnseenGo seen m rest
      else
        match removeActor m id with
        | (m2, some err) => (m2, some err)
        | (m2, none) => removeUnseenGo seen m2 rest

def removeUnseen (m : Manager) (seen : List String) : Manager × Option JsError :=
  removeUnseenGo seen m (m.instances.map (fun i => i.instanceId))

/-- `_raiseInstance` (+ `_raiseAddButton`): move the actor tag, then the
add-button tag of the same surface, to the top of the container child
order.  Touches surface child order only. -/
def raiseTagInSurface (m : Manager) (monitorIndex : Int) (tag : String) : Manager :=
  { m with
    surfaces :=
      m.surfaces.map fun s =>
        if s.monitorIndex == monitorIndex && s.children.contains tag then
          { s with children := s.children.filter (fun c => !(c == tag)) ++ [tag] }
        else s }

def addButtonIdOf (monitorIndex : Int) : String :=
  "__ding-add-button-" ++ toString monitorIndex

def raiseInstance (m : Manager) (instanceId : String) : Manager :=
  match getInstance m instanceId with
  | none => m
  | some inst =>
    let m1 := raiseTagInSurface m inst.monitorIndex instanceId
    raiseTagInSurface m1 inst.monitorIndex (addButtonIdOf inst.monitorIndex)

/-- `selectInstance`: CSS classes, chrome buttons and the preferences
window side effects live outside the manager's own data and are not
modelled; what remains is the selection id and the stacking raise. -/
def selectInstance (m : Manager) (instanceId : Option String) : Manager :=
  if jsFalsyS instanceId then { m with selectedInstanceId := none }
  else
    let iid := instanceId.getD ""
    let m1 := { m with selectedInstanceId := some iid }
    match getInstance m1 iid with
    | none => { m1 with selectedInstanceId := none }
    | some inst =>
      if !inst.actor || inst.isAddButton then
        { m1 with selectedInstanceId := none }
      else raiseInstance m1 iid

/-- One iteration of the `loadState` entry loop: entries with falsy ids
are skipped, the rest are applied and their id recorded in `seen`. -/
def loadStateStep (acc : Manager × List String) (e : StateEntry) :
    Manager × List String :=
  if entryTruthyIds e then
    (applyStateEntry acc.fst e, acc.snd ++ [e.instanceId.getD ""])
  else acc

/-- `loadState(state)`.  Returns the manager and the JS exception that
escaped, if any (only host teardown during the removal pass can throw). -/
def loadState (m : Manager) (state : Option StateDoc) : Manager × Option JsError :=
  match state with
  | none => (m, none)
  | some doc =>
    match doc.instances with
    | none => (m, none)
    | some entries =>
      let prevSelection := m.selectedInstanceId
      let previousSuppressionState := m.suppressStateEvents
      let m1 := { m with suppressStateEvents := true }
      let folded := entries.foldl loadStateStep (m1, [])
      match removeUnseen folded.fst folded.snd with
      | (m3, some err) => (m3, some err)
      | (m3, none) =>
        let m4 :=
          if !(jsFalsyS prevSelection) &&
              m3.instances.any (fun i => some i.instanceId == prevSelection) then
            selectInstance m3 prevSelection
          else selectInstance m3 none
        ({ m4 with suppressStateEvents := previousSuppressionState }, none)

/-- `updateInstanceConfig`: replace the config wholesale (the
`_stateChanged` notification writes preferences outside the manager). -/
def updateInstanceConfig (m : Manager) (instanceId : String) (newConfig : Config) :
    Manager :=
  match getInstance m instanceId with
  | none => m
  | some _ => setInstanceFields m instanceId (fun i => { i with config := newConfig })

/-! ### Export -/

/-- `_computeZIndexByInstanceId`: walk each surface's container children
bottom-to-top, and record the first index seen for each child that tags
a known non-add-button instance.  The position counter advances over
every child, known or not. -/
def zIndexChildren (m : Manager) (acc : List (String × Int)) :
    List String → Int → List (String × Int)
  | [], _ => acc
  | tag :: rest, i =>
    let acc2 :=
      match getInstance m tag with
      | some inst =>
        if !inst.isAddButton && !(acc.any (fun kv => kv.fst == tag)) then
          acc ++ [(tag, i)]
        else acc
      | none => acc
    zIndexChildren m acc2 rest (i + 1)

def computeZIndexByInstanceId (m : Manager) : List (String × Int) :=
  m.surfaces.foldl (fun acc s => zIndexChildren m acc s.children 0) []

def zOf (z : List (String × Int)) (instanceId : String) : Int :=
  match z.find? (fun kv => kv.fst == instanceId) with
  | some kv => kv.snd
  | none => -1

/-- The comparator of `_sortedInstancesForExport` as a may-precede test:
group by monitor index, then by observed z index. -/
def exportLe (z : List (String × Int)) (a b : WInstance) : Bool :=
  if a.monitorIndex == b.monitorIndex then
    zOf z a.instanceId ≤ zOf z b.instanceId
  else a.monitorIndex ≤ b.monitorIndex

/-- Stable insertion used to model JS `Array.prototype.sort` (stable per
the language spec; any stable sort for a total preorder produces the
same list). -/
def insStable {α : Type} (le : α → α → Bool) (x : α) : List α → List α
  | [] => [x]
  | y :: l => if le x y then x :: y :: l else y :: insStable le x l

def stableSort {α : Type} (le : α → α → Bool) : List α → List α
  | [] => []
  | x :: l => insStable le x (stableSort le l)

def sortedInstancesForExport (m : Manager) (z : List (String × Int)) :
    List WInstance :=
  stableSort (exportLe z) (m.instances.filter (fun i => !i.isAddButton))

def exportProj (i : WInstance) : ExportEntry :=
  { instanceId := i.instanceId
    widgetId := i.widgetId
    monitorIndex := i.monitorIndex
    kind := i.kind
    normX := i.normX
    normY := i.normY
    width := i.width
    height := i.height
    config := i.config
    prefsUri := i.prefsUri
    hasPreferences := i.hasPreferences }

/-- The persisted projection of a live instance together with its
add-button flag (the part of an instance the round-trip claim tracks). -/
def projP (i : WInstance) : ExportEntry × Bool :=
  (exportProj i, i.isAddButton)

/-- `exportState()` in state-passing form: every step reads the manager
and builds fresh locals (`_computeZIndexByInstanceId` a fresh map,
`_sortedInstancesForExport` a fresh sorted array of references, the
output document a fresh object); the manager component is the state
after the call. -/
def exportStateS (m : Manager) : ExportDoc × Manager :=
  let zIndexByInstanceId := computeZIndexByInstanceId m
  let sortedInstances := sortedInstancesForExport m zIndexByInstanceId
  ({ version := 1, instances := sortedInstances.map exportProj }, m)

def exportState (m : Manager) : ExportDoc :=
  (exportStateS m).fst

/-- Modelled from the spec: the value `loadState` stores for a
well-formed persisted entry — all fields present, so every `??` default
is bypassed. -/
def normalizeEntry (e : StateEntry) : ExportEntry :=
  { instanceId := e.instanceId.getD ""
    widgetId := e.widgetId.getD ""
    monitorIndex := e.monitorIndex.getD 0
    kind := e.kind.getD "html"
    normX := e.normX.getD 0
    normY := e.normY.getD 0
    width := e.width.getD 200
    height := e.height.getD 150
    config := e.config.getD []
    prefsUri := e.prefsUri
    hasPreferences := e.hasPreferences.getD (!(jsFalsyS e.prefsUri)) }

/-- Well-formedness of a persisted document for the round-trip claim:
every entry carries truthy ids and all persisted fields. -/
def wfEntry (e : StateEntry) : Bool :=
  entryTruthyIds e && e.kind.isSome && e.monitorIndex.isSome &&
  e.normX.isSome && e.normY.isSome && e.width.isSome && e.height.isSome &&
  e.config.isSome && e.hasPreferences.isSome

def entryId (e : StateEntry) : String :=
  e.instanceId.getD ""

def wfDoc (entries : List StateEntry) : Prop :=
  (∀ e ∈ entries, wfEntry e = true) ∧ (entries.map entryId).Nodup

/-- A host that can be destroyed without a TypeError. -/
def hostDestroySafe : Option HWHost → Prop
  | none => True
  | some h => h.frame.isSome = true ∧ h.webView.isSome = true

/-! ## Web widget context (WebWidgetContext)

The shared runtime's preferences-window state (`_prefsWindow`,
`_prefsInstanceId`, `_prefsHost`) plus an environment model of the GTK
windows actually alive in the process: window identities are fresh
naturals, `openWindows` lists the preferences windows currently open,
and `uiEvents` records create/present/destroy calls in order. -/

inductive CtxEvent where
  | createWin (n : Nat)
  | presentWin (n : Nat)
  | destroyWin (n : Nat)
deriving DecidableEq

structure WebCtx where
  prefsWindow : Option Nat
  prefsInstanceId : Option String
  prefsHost : Option HWHost
  nextWin : Nat
  openWindows : List Nat
  uiEvents : List CtxEvent
deriving DecidableEq

/-- `closePreferencesIfAny`: destroy the hosted surface, then the
window.  A TypeError from the host destroy propagates before the window
is destroyed. -/
def closePreferencesIfAny (ctx : WebCtx) : WebCtx × Option JsError :=
  match ctx.prefsWindow with
  | none => (ctx, none)
  | some win =>
    let step :=
      match ctx.prefsHost with
      | none => (ctx, (none : Option JsError))
      | some ph =>
        let d := destroyHost ph
        ({ ctx with prefsHost := some d.fst }, d.snd)
    match step.snd with
    | some e => (step.fst, some e)
    | none =>
      ({ step.fst with
          prefsHost := none
          prefsWindow := none
          prefsInstanceId := none
          openWindows := step.fst.openWindows.filter (fun n => !(n == win))
          uiEvents := step.fst.uiEvents ++ [.destroyWin win] }, none)

def closePreferencesForInstance (ctx : WebCtx) (instanceId : Option String) :
    WebCtx × Option JsError :=
  if jsFalsyS instanceId then (ctx, none)
  else if ¬ instanceId = ctx.prefsInstanceId then (ctx, none)
  else closePreferencesIfAny ctx

/-- The close-then-create tail of `openPreferencesForInstance`: close
whatever preferences window is open, look the instance up, then build a
new window and a `prefs`-mode host for it and present it. -/
def openPreferencesFresh (m : Manager) (ctx : WebCtx)
    (instanceId prefsUri : Option String) : WebCtx × Option JsError :=
  match closePreferencesIfAny ctx with
  | (ctx1, some e) => (ctx1, some e)
  | (ctx1, none) =>
    match getInstance m (instanceId.getD "") with
    | none => (ctx1, none)
    | some inst =>
      let win := ctx1.nextWin
      let host :=
        mkHtmlWidgetHost (instanceId.getD "") inst.widgetId "prefs" prefsUri
      ({ ctx1 with
          nextWin := win + 1
          openWindows := ctx1.openWindows ++ [win]
          prefsHost := some host
          prefsWindow := some win
          prefsInstanceId := instanceId
          uiEvents := ctx1.uiEvents ++ [.createWin win, .presentWin win] },
        none)

/-- `openPreferencesForInstance(instanceId, prefsUri)`: only for the
currently selected instance; re-present when already open for the same
instance; otherwise close whatever is open, then build a new window and
a `prefs`-mode host for it and present it. -/
def openPreferencesForInstance (m : Manager) (ctx : WebCtx)
    (instanceId prefsUri : Option String) : WebCtx × Option JsError :=
  if jsFalsyS instanceId || jsFalsyS prefsUri then (ctx, none)
  else if jsFalsyS m.selectedInstanceId ||
      ¬ m.selectedInstanceId = instanceId then (ctx, none)
  else
    match ctx.prefsWindow with
    | some win =>
      if ctx.prefsInstanceId = instanceId then
        ({ ctx with uiEvents := ctx.uiEvents ++ [.presentWin win] }, none)
      else openPreferencesFresh m ctx instanceId prefsUri
    | none => openPreferencesFresh m ctx instanceId prefsUri

/-! ### Script message dispatch -/

structure WidgetPayload where
  instanceId : Option String
  type : Option String
  config : Option Config
  requestId : Option String
  mode : Option String
deriving DecidableEq

/-- The whole host-process state the dispatcher touches. -/
structure World where
  manager : Manager
  ctx : WebCtx
deriving DecidableEq

def setInstanceHost (m : Manager) (instanceId : String) (h : Option HWHost) :
    Manager :=
  setInstanceFields m instanceId (fun i => { i with host := h })

/-- `_postToWidget`: deliver via the instance's host if it has one. -/
def postToWidget (m : Manager) (instanceId : String) (msg : DownMsg) : Manager :=
  match getInstance m instanceId with
  | none => m
  | some inst =>
    match inst.host with
    | none => m
    | some h => setInstanceHost m instanceId (some (hostPostMessage h (some msg)))

/-- `_postToPrefs`: deliver to the preferences host when it is showing
this instance. -/
def postToPrefs (ctx : WebCtx) (instanceId : String) (msg : DownMsg) : WebCtx :=
  match ctx.prefsHost with
  | none => ctx
  | some ph =>
    if ctx.prefsInstanceId = some instanceId then
      { ctx with prefsHost := some (hostPostMessage ph (some msg)) }
    else ctx

/-- `_pushConfigChangedForInstance`: the broadcast reads the instance
again from the manager (the JS binding aliases the mutated object, so
the config carried is the post-update one). -/
def pushConfigChangedForInstance (w : World) (instanceId : String)
    (mode : Option String) : World :=
  match getInstance w.manager instanceId with
  | none => w
  | some inst =>
    let msg := DownMsg.configChanged instanceId inst.config "configSaved" mode
    { manager := postToWidget w.manager instanceId msg
      ctx := postToPrefs w.ctx instanceId msg }

/-- `_routeAndPost`. -/
def routeAndPost (w : World) (instanceId : String) (mode : Option String)
    (msg : DownMsg) : World :=
  match mode with
  | some "prefs" => { w with ctx := postToPrefs w.ctx instanceId msg }
  | some "widget" => { w with manager := postToWidget w.manager instanceId msg }
  | _ =>
    { manager := postToWidget w.manager instanceId msg
      ctx := postToPrefs w.ctx instanceId msg }

/-- `_doWidgetGetConfig`. -/
def doWidgetGetConfig (w : World) (instanceId : String) (mode : Option String)
    (requestId : Option String) : World :=
  match getInstance w.manager instanceId with
  | none => w
  | some inst => routeAndPost w instanceId mode (.getConfigReply requestId inst.config)

/-- `computeHostStateForInstance`. -/
def computeHostStateForInstance (m : Manager) (inst : WInstance) : HostStatePatch :=
  { editMode :=
      some (match findSurface m inst.monitorIndex with
            | some s => s.onTop
            | none => false)
    selected := some (m.selectedInstanceId == some inst.instanceId)
    theme := some (if m.darkmode then "dark" else "light")
    reducedMotion := some (!m.globalAnimations)
    direction := some m.envDirection
    locale := some m.envLocale }

/-- `_pushPatchtoTarget`: html instances with a host only; mirrored to
the preferences host when it shows the same instance. -/
def pushPatchToTarget (w : World) (instanceId : String) (patch : HostStatePatch) :
    World :=
  match getInstance w.manager instanceId with
  | none => w
  | some inst =>
    if ¬ inst.kind = "html" then w
    else
      match inst.host with
      | none => w
      | some h =>
        let m1 := setInstanceHost w.manager instanceId
          (some (hostSetHostStatePatch h (some patch)))
        let ctx1 :=
          match w.ctx.prefsHost with
          | some ph =>
            if w.ctx.prefsInstanceId = some instanceId then
              { w.ctx with prefsHost := some (hostSetHostStatePatch ph (some patch)) }
            else w.ctx
          | none => w.ctx
        { manager := m1, ctx := ctx1 }

def pushFullHostStateForInstance (w : World) (instanceId : String) : World :=
  match getInstance w.manager instanceId with
  | none => w
  | some inst => pushPatchToTarget w instanceId (computeHostStateForInstance w.manager inst)

/-- `_dispatchWidgetMessage`: re-validate that the message's instance
has a live surface whose URL still carries the expected
`ding-widget://<instanceId>/` origin, then dispatch by type.  A missing
host makes `getWebViewAsync` throw into the catch (return); a pending
surface suspends until readiness, so the dispatch is modelled for ready
surfaces. -/
def dispatchWidgetMessage (w : World) (payload : WidgetPayload) : World :=
  match payload.instanceId with
  | none => w
  | some instanceId =>
    match getInstance w.manager instanceId with
    | none => w
    | some inst =>
      match inst.host with
      | none => w
      | some h =>
        match h.webView with
        | none => w
        | some _ =>
          let uri := h.uri.getD ""
          if strBegins ("ding-widget://" ++ instanceId ++ "/") uri then
            match payload.type with
            | some "updateConfig" =>
              let m1 :=
                match payload.config with
                | some c => updateInstanceConfig w.manager instanceId c
                | none => w.manager
              pushConfigChangedForInstance { w with manager := m1 } instanceId
                payload.mode
            | some "getConfig" =>
              doWidgetGetConfig w instanceId payload.mode payload.requestId
            | some "hostReady" =>
              pushConfigChangedForInstance
                (pushFullHostStateForInstance w instanceId) instanceId none
            | some "openPreferences" =>
              if inst.hasPreferences && !(jsFalsyS inst.prefsUri) then
                let r := openPreferencesForInstance w.manager w.ctx
                  (some instanceId) inst.prefsUri
                { w with ctx := r.fst }
              else w
            | some "closePreferences" =>
              let r := closePreferencesForInstance w.ctx (some instanceId)
              { w with ctx := r.fst }
            | _ => w
          else w

/-! ## Invariants used by the claims -/

/-- The preferences-window invariant: the process-wide list of open
preferences windows is exactly the one the context tracks (so at most
one), and tracked window ids are below the fresh counter. -/
def prefsInvB (ctx : WebCtx) : Bool :=
  match ctx.prefsWindow with
  | some w => ctx.openWindows == [w] && decide (w < ctx.nextWin)
  | none => ctx.openWindows == []

/-- The currently hosted preferences surface, if any, is fully
constructed (frame and web view alive), so its teardown cannot raise. -/
def prefsHostOkB (ctx : WebCtx) : Bool :=
  match ctx.prefsHost with
  | none => true
  | some ph => ph.frame.isSome && ph.webView.isSome

/-! ## Concrete example inputs for the claims -/

/-- C1 example: the jail root of instance `abc`. -/
def c1ExRoot : String := "/usr/share/ding/widgets/abc"

def c1ExUri : UriParts :=
  { scheme := "ding-widget", host := "abc", path := "/../../etc/passwd" }

def c1ExReq : SchemeRequest :=
  { uri := some c1ExUri
    webView := { rootPath := some c1ExRoot, instanceId := some "abc" } }

def c1ExEnv : SchemeEnv :=
  { instanceRoots := fun id => if id == "abc" then some c1ExRoot else none
    fs :=
      { stat := fun p =>
          if p = ["usr", "share", "ding", "widgets", "abc", "index.html"] then
            some ⟨false⟩
          else none
        readBytes := fun p =>
          if p = ["usr", "share", "ding", "widgets", "abc", "index.html"] then
            some [60, 104, 116, 109, 108, 62]
          else none }
    mimeGuess := fun _ => none
    cspString := some "default-src none" }

/-- C2 example: a css file that is a symlink inside the jail. -/
def c2ExRoot : String := "/usr/share/ding/widgets/clock"

def c2ExUri : UriParts :=
  { scheme := "ding-widget", host := "clock-1", path := "/assets/link.css" }

def c2ExReq : SchemeRequest :=
  { uri := some c2ExUri
    webView := { rootPath := some c2ExRoot, instanceId := some "clock-1" } }

def c2ExEnv : SchemeEnv :=
  { instanceRoots := fun id => if id == "clock-1" then some c2ExRoot else none
    fs :=
      { stat := fun p =>
          if p = ["usr", "share", "ding", "widgets", "clock", "assets"] then
            some ⟨false⟩
          else if p = ["usr", "share", "ding", "widgets", "clock", "assets",
              "link.css"] then
            some ⟨true⟩
          else none
        readBytes := fun _ => some [42] }
    mimeGuess := fun _ => none
    cspString := none }

/-- C5 example inputs: one queued message, then one queued patch. -/
def c5ExPatch : HostStatePatch := { emptyPatch with selected := some true }

def c5ExMsg : DownMsg := .getConfigReply (some "r1") [("color", "red")]

def c5ExHost : HWHost := mkHtmlWidgetHost "X" "clock" "widget" none

def c5ExCalls : List HostCall := [.msgCall c5ExMsg, .patchCall c5ExPatch]

/-- C9 example: a fully constructed, ready host. -/
def c9ExHost : HWHost :=
  hostBecomeReady (mkHtmlWidgetHost "X" "clock" "widget" none)
    (some "ding-widget://X/index.html")

/-- C3 example entries: a user and a system bundle sharing id `clock`. -/
def c3ExUserClock : ScanManifest :=
  { id := some "clock", isUser := true,
    dirPath := "/home/liveuser/.local/share/app/widgets/clock", version := "2" }

def c3ExSystemClock : ScanManifest :=
  { id := some "clock", isUser := false,
    dirPath := "/usr/share/app/widgets/clock", version := "1" }

/-- C4 example: a manager holding one stale instance and one add button,
loading a two-entry document. -/
def c4ExInstanceOld : WInstance :=
  { instanceId := "old", widgetId := "w0", kind := "html", monitorIndex := 0
    normX := 0, normY := 0, width := 100, height := 100, config := []
    prefsUri := none, hasPreferences := false, actor := false, host := none
    isAddButton := false }

def c4ExAddButton : WInstance :=
  { instanceId := "__ding-add-button-0", widgetId := "__ding-add-button"
    kind := "chrome", monitorIndex := 0, normX := 0, normY := 0, width := 64
    height := 64, config := [], prefsUri := none, hasPreferences := false
    actor := true, host := none, isAddButton := true }

def c4ExManager : Manager :=
  { instances := [c4ExInstanceOld, c4ExAddButton]
    selectedInstanceId := none
    suppressStateEvents := false
    showDesktopWidgets := true
    surfaces := []
    darkmode := false
    globalAnimations := true
    envDirection := "ltr"
    envLocale := "en_US" }

def c4ExEntry1 : StateEntry :=
  { instanceId := some "a1", widgetId := some "clock", kind := some "html"
    monitorIndex := some 1, normX := some (1 / 2), normY := some (1 / 4)
    width := some 200, height := some 150, config := some [("color", "red")]
    prefsUri := none, hasPreferences := some false }

def c4ExEntry2 : StateEntry :=
  { instanceId := some "b2", widgetId := some "notes", kind := some "html"
    monitorIndex := some 0, normX := some 0, normY := some 0
    width := some 300, height := some 200, config := some []
    prefsUri := some "prefs.html", hasPreferences := some true }

def c4ExEntries : List StateEntry := [c4ExEntry1, c4ExEntry2]

def c4ExDoc : StateDoc := { version := some 1, instances := some c4ExEntries }

/-- C6 example: a live ready instance `X` with the preferences window
open for it. -/
def c6ExHost : HWHost :=
  { mkHtmlWidgetHost "X" "clock" "widget" none with
      webView := some (), uri := some "ding-widget://X/index.html" }

def c6ExPrefsHost : HWHost :=
  { mkHtmlWidgetHost "X" "clock" "prefs" (some "prefs.html") with
      webView := some (), uri := some "ding-widget://X/prefs.html" }

def c6ExInstance : WInstance :=
  { instanceId := "X", widgetId := "clock", kind := "html", monitorIndex := 0
    normX := 0, normY := 0, width := 200, height := 150, config := []
    prefsUri := some "prefs.html", hasPreferences := true, actor := true
    host := some c6ExHost, isAddButton := false }

def c6ExManager : Manager :=
  { instances := [c6ExInstance]
    selectedInstanceId := some "X"
    suppressStateEvents := false
    showDesktopWidgets := true
    surfaces := [{ monitorIndex := 0, children := ["X"], onTop := true }]
    darkmode := false
    globalAnimations := true
    envDirection := "ltr"
    envLocale := "en_US" }

def c6ExWorld : World :=
  { manager := c6ExManager
    ctx :=
      { prefsWindow := some 0, prefsInstanceId := some "X"
        prefsHost := some c6ExPrefsHost, nextWin := 1, openWindows := [0]
        uiEvents := [] } }

def c6ExPayload : WidgetPayload :=
  { instanceId := some "X", type := some "updateConfig"
    config := some [("color", "red")], requestId := none, mode := some "widget" }

/-- C8 example: instance `Y` selected, preferences open for `Z`. -/
def c8ExPrefsHost : HWHost :=
  { mkHtmlWidgetHost "Z" "notes" "prefs" (some "p.html") with webView := some () }

def c8ExInstanceY : WInstance :=
  { instanceId := "Y", widgetId := "clock", kind := "html", monitorIndex := 0
    normX := 0, normY := 0, width := 200, height := 150, config := []
    prefsUri := some "prefs.html", hasPreferences := true, actor := true
    host := none, isAddButton := false }

def c8ExManager : Manager :=
  { instances := [c8ExInstanceY]
    selectedInstanceId := some "Y"
    suppressStateEvents := false
    showDesktopWidgets := true
    surfaces := []
    darkmode := false
    globalAnimations := true
    envDirection := "ltr"
    envLocale := "en_US" }

def c8ExCtx : WebCtx :=
  { prefsWindow := some 4, prefsInstanceId := some "Z"
    prefsHost := some c8ExPrefsHost, nextWin := 5, openWindows := [4]
    uiEvents := [] }

/-- C7 example doc with a version and no instances array. -/
def c7ExDoc : StateDoc := { version := some 1, instances := none }

end Ding

/-! # Theorems -/

namespace Ding

/-! ## C1: escaping resource paths are denied before any read -/

/-- Claim C1: for every `ding-widget://` request whose normalized
relative path (leading slashes and `./` segments stripped) resolves
outside the instance's jail root under lexical canonicalization, the
scheme handler finishes the request with a permission-denied error and
performs no file read (so no response bytes are ever produced). -/
theorem c1_escaping_path_denied (env : SchemeEnv) (req : SchemeRequest)
    (guri : UriParts) (rootPath : String)
    (hu : req.uri = some guri)
    (hs : guri.scheme = "ding-widget")
    (hh : ¬ guri.host = "")
    (hb : req.webView.rootPath = some rootPath)
    (hbi : req.webView.instanceId = some guri.host)
    (hr : env.instanceRoots guri.host = some rootPath)
    (hne : ¬ normalizeRelPath guri.path = "")
    (hesc : escapesRoot rootPath (normalizeRelPath guri.path) = true) :
    dingWidgetUriRequest env req =
      (.finishedError .permissionDenied "Path escapes widget root", []) := by
  simp [dingWidgetUriRequest, hu, hs, hh, hb, hbi, hr, hne, hesc]

/-- Witness for C1: the concrete request
`ding-widget://abc/../../etc/passwd` on instance `abc` is denied with
permission-denied before any read. -/
theorem c1_escaping_path_denied_witness :
    escapesRoot c1ExRoot (normalizeRelPath "/../../etc/passwd") = true ∧
    dingWidgetUriRequest c1ExEnv c1ExReq =
      (.finishedError .permissionDenied "Path escapes widget root", []) :=
  ⟨by decide,
    c1_escaping_path_denied c1ExEnv c1ExReq c1ExUri c1ExRoot rfl rfl
      (by decide) rfl rfl (by decide) (by decide) (by decide)⟩

/-! ## C2: symlinked components are denied before any load -/

/-- If every prefix up to some component stats successfully and that
component is a symlink, the component walk reports the symlink. -/
theorem symlinkWalk_finds_symlink (fs : FsModel) :
    ∀ (parts : List String) (cur : List String) (k : Nat),
      k < parts.length →
      (∀ j, j ≤ k → (fs.stat (cur ++ parts.take (j + 1))).isSome = true) →
      statIsSymlink fs (cur ++ parts.take (k + 1)) = true →
      symlinkWalk fs cur parts = .symlinkFound := by
  intro parts
  induction parts with
  | nil => intro cur k hk; exact absurd hk (by simp)
  | cons p rest ih =>
    intro cur k hk hq hsym
    have h0 : (fs.stat (cur ++ [p])).isSome = true := by
      have := hq 0 (Nat.zero_le k)
      simpa using this
    rcases hinfo : fs.stat (cur ++ [p]) with _ | info
    · rw [hinfo] at h0; simp at h0
    · by_cases hlink : info.isSymlink
      · simp [symlinkWalk, hinfo, hlink]
      · have hkpos : k ≠ 0 := by
          intro h0k
          subst h0k
          simp only [statIsSymlink, List.take_succ_cons, List.take_zero,
            hinfo] at hsym
          exact hlink hsym
        rcases Nat.exists_eq_succ_of_ne_zero hkpos with ⟨k2, rfl⟩
        have step : symlinkWalk fs cur (p :: rest) =
            symlinkWalk fs (cur ++ [p]) rest := by
          simp [symlinkWalk, hinfo, hlink]
        rw [step]
        refine ih (cur ++ [p]) k2 (by simpa using Nat.lt_of_succ_lt_succ hk)
          (fun j hj => ?_) ?_
        · have := hq (j + 1) (Nat.succ_le_succ hj)
          simpa [List.append_assoc] using this
        · have : cur ++ List.take (k2 + 1 + 1) (p :: rest) =
              (cur ++ [p]) ++ List.take (k2 + 1) rest := by
            simp [List.append_assoc]
          rw [← this]
          exact hsym

/-- Claim C2: independently of the canonicalization check, when the
components of the normalized relative path stat successfully up to one
that is a symbolic link, the handler finishes the request with a
permission-denied error and attempts no file load. -/
theorem c2_symlink_component_denied (env : SchemeEnv) (req : SchemeRequest)
    (guri : UriParts) (rootPath : String) (k : Nat)
    (hu : req.uri = some guri)
    (hs : guri.scheme = "ding-widget")
    (hh : ¬ guri.host = "")
    (hb : req.webView.rootPath = some rootPath)
    (hbi : req.webView.instanceId = some guri.host)
    (hr : env.instanceRoots guri.host = some rootPath)
    (hne : ¬ normalizeRelPath guri.path = "")
    (hk : k < (splitPath (normalizeRelPath guri.path)).length)
    (hq : ∀ j, j ≤ k →
      (env.fs.stat (splitPath rootPath ++
        (splitPath (normalizeRelPath guri.path)).take (j + 1))).isSome = true)
    (hsym : statIsSymlink env.fs (splitPath rootPath ++
      (splitPath (normalizeRelPath guri.path)).take (k + 1)) = true) :
    (dingWidgetUriRequest env req).snd = [] ∧
    ∃ msg, (dingWidgetUriRequest env req).fst =
      .finishedError .permissionDenied msg := by
  by_cases hesc : escapesRoot rootPath (normalizeRelPath guri.path) = true
  · rw [c1_escaping_path_denied env req guri rootPath hu hs hh hb hbi hr hne hesc]
    exact ⟨rfl, "Path escapes widget root", rfl⟩
  · have hwalk := symlinkWalk_finds_symlink env.fs
      (splitPath (normalizeRelPath guri.path)) (splitPath rootPath) k hk hq hsym
    rw [show dingWidgetUriRequest env req =
        (.finishedError .permissionDenied
          "Symlinks are not allowed in widget paths", []) by
      simp [dingWidgetUriRequest, hu, hs, hh, hb, hbi, hr, hne, hesc, hwalk]]
    exact ⟨rfl, "Symlinks are not allowed in widget paths", rfl⟩

/-- Witness for C2: a request whose target css file is a symlink inside
the jail is denied with permission-denied and nothing is loaded. -/
theorem c2_symlink_component_denied_witness :
    statIsSymlink c2ExEnv.fs (splitPath c2ExRoot ++
      (splitPath (normalizeRelPath "/assets/link.css")).take 2) = true ∧
    (dingWidgetUriRequest c2ExEnv c2ExReq).snd = [] ∧
    ∃ msg, (dingWidgetUriRequest c2ExEnv c2ExReq).fst =
      .finishedError .permissionDenied msg :=
  ⟨by decide,
    c2_symlink_component_denied c2ExEnv c2ExReq c2ExUri c2ExRoot 1 rfl rfl
      (by decide) rfl rfl (by decide) (by decide) (by decide)
      (by decide) (by decide)⟩

/-! ## C3: registry deduplication, user-over-system, one warning per id -/

theorem mapGet_mapSet_self {α : Type} (m : List (String × α)) (k : String)
    (v : α) : mapGet (mapSet m k v) k = some v := by
  induction m with
  | nil => simp [mapSet, mapGet]
  | cons kv m ih =>
    by_cases h : kv.fst = k
    · simp [mapSet, mapGet, h]
    · simp [mapSet, mapGet, h, ih]

theorem mapGet_mapSet_other {α : Type} (m : List (String × α)) (k x : String)
    (v : α) (h : ¬ x = k) : mapGet (mapSet m k v) x = mapGet m x := by
  have hkx : k ≠ x := fun hh => h hh.symm
  induction m with
  | nil => simp [mapSet, mapGet, hkx]
  | cons kv m ih =>
    by_cases hk : kv.fst = k
    · simp [mapSet, mapGet, hk, hkx]
    · simp [mapSet, mapGet, hk, ih]

theorem mapSet_keys_mem {α : Type} (m : List (String × α)) (k : String)
    (v : α) (h : ¬ mapGet m k = none) :
    (mapSet m k v).map Prod.fst = m.map Prod.fst := by
  induction m with
  | nil => simp [mapGet] at h
  | cons kv m ih =>
    by_cases hk : kv.fst = k
    · simp [mapSet, hk]
    · simp only [mapGet, beq_iff_eq, hk, if_false, ite_false] at h
      simp [mapSet, hk, ih h]

theorem mapSet_keys_new {α : Type} (m : List (String × α)) (k : String)
    (v : α) (h : mapGet m k = none) :
    (mapSet m k v).map Prod.fst = m.map Prod.fst ++ [k] := by
  induction m with
  | nil => simp [mapSet]
  | cons kv m ih =>
    by_cases hk : kv.fst = k
    · simp [mapGet, hk] at h
    · simp only [mapGet, beq_iff_eq, hk, if_false, ite_false] at h
      simp [mapSet, hk, ih h]

theorem mapGet_none_iff_not_mem_keys {α : Type} (m : List (String × α))
    (k : String) : mapGet m k = none ↔ k ∉ m.map Prod.fst := by
  induction m with
  | nil => simp [mapGet]
  | cons kv m ih =>
    by_cases hk : kv.fst = k
    · simp [mapGet, hk]
    · simp only [mapGet, beq_iff_eq, hk, if_false, ite_false, List.map_cons,
        List.mem_cons]
      rw [ih]
      constructor
      · intro hnm hor
        rcases hor with hor | hor
        · exact hk hor.symm
        · exact hnm hor
      · intro hall hm
        exact hall (Or.inr hm)

theorem winnerOf_eq_none_iff (l : List ScanManifest) :
    winnerOf l = none ↔ l = [] := by
  cases l with
  | nil => simp [winnerOf]
  | cons a t =>
    simp only [winnerOf]
    constructor
    · intro h
      by_cases ha : a.isUser
      · simp [ha] at h
      · rcases hw : winnerOf t with _ | w
        · simp [ha, hw] at h
        · by_cases hwu : w.isUser <;> simp [ha, hw, hwu] at h
    · intro h; cases h

theorem winnerOf_no_user (l : List ScanManifest) (w : ScanManifest)
    (hw : winnerOf l = some w) (hnu : w.isUser = false) :
    ∀ a ∈ l, a.isUser = false := by
  induction l generalizing w with
  | nil => intro a ha; cases ha
  | cons b t ih =>
    intro a ha
    by_cases hb : b.isUser
    · rw [winnerOf, if_pos hb] at hw
      cases hw
      rw [hnu] at hb; cases hb
    · rcases List.mem_cons.mp ha with rfl | ha2
      · exact eq_false_of_ne_true hb
      · rcases hwt : winnerOf t with _ | wt
        · rw [(winnerOf_eq_none_iff t).mp hwt] at ha2; cases ha2
        · rw [winnerOf, if_neg hb] at hw
          simp only [hwt] at hw
          by_cases hwtu : wt.isUser
          · rw [if_pos hwtu] at hw
            have h2 : wt = w := by injection hw
            subst h2
            exact ih _ hwt hnu a ha2
          · exact ih wt hwt (eq_false_of_ne_true hwtu) a ha2

theorem winnerOf_append (l : List ScanManifest) (w e : ScanManifest)
    (hw : winnerOf l = some w) :
    winnerOf (l ++ [e]) = some (if e.isUser && !w.isUser then e else w) := by
  induction l generalizing w with
  | nil => cases hw
  | cons b t ih =>
    by_cases hb : b.isUser
    · rw [winnerOf, if_pos hb] at hw
      have h2 : b = w := by injection hw
      subst h2
      rw [List.cons_append, winnerOf, if_pos hb]
      simp [hb]
    · rw [winnerOf, if_neg hb] at hw
      rcases hwt : winnerOf t with _ | wt
      · simp only [hwt] at hw
        have h2 : b = w := by injection hw
        subst h2
        have ht : t = [] := (winnerOf_eq_none_iff t).mp hwt
        subst ht
        by_cases he : e.isUser <;>
          simp [winnerOf, hb, he, eq_false_of_ne_true hb]
      · simp only [hwt] at hw
        rw [List.cons_append, winnerOf, if_neg hb]
        simp only [ih wt hwt]
        by_cases hwtu : wt.isUser
        · rw [if_pos hwtu] at hw
          have h2 : wt = w := by injection hw
          subst h2
          simp [hwtu]
        · rw [if_neg hwtu] at hw
          have h2 : b = w := by injection hw
          subst h2
          by_cases he : e.isUser
          · simp [he, eq_false_of_ne_true hb, eq_false_of_ne_true hwtu]
          · simp [he, eq_false_of_ne_true hb, eq_false_of_ne_true hwtu]

theorem entriesForId_append_single (es : List ScanManifest) (e : ScanManifest)
    (x : String) :
    entriesForId (es ++ [e]) x =
      entriesForId es x ++ if manifestValidId e == some x then [e] else [] := by
  simp only [entriesForId, List.filter_append]
  congr 1
  by_cases h : manifestValidId e == some x <;> simp [List.filter, h]

theorem logDuplicateIds_widgets (st : ScanState) (id : String) :
    (logDuplicateIds st id).widgets = st.widgets := by
  unfold logDuplicateIds
  by_cases hc : st.loggedDuplicateIds.contains id
  · rw [if_pos hc]
  · rw [if_neg hc]

theorem processManifest_invalid (st : ScanState) (e : ScanManifest)
    (hvid : manifestValidId e = none) : processManifest st e = st := by
  simp [processManifest, hvid]

theorem processManifest_new (st : ScanState) (e : ScanManifest) (id : String)
    (hvid : manifestValidId e = some id)
    (hget : mapGet st.widgets id = none) :
    processManifest st e =
      { st with widgets := mapSet st.widgets id (descOfManifest id e) } := by
  simp [processManifest, hvid, hget]

theorem processManifest_coll_widgets (st : ScanState) (e : ScanManifest)
    (id : String) (existing : WidgetDescriptor)
    (hvid : manifestValidId e = some id)
    (hget : mapGet st.widgets id = some existing) :
    (processManifest st e).widgets =
      if e.isUser && !existing.isUser then
        mapSet st.widgets id (descOfManifest id e)
      else st.widgets := by
  simp only [processManifest, hvid, hget, logDuplicateIds_widgets]

theorem processManifest_coll_logged (st : ScanState) (e : ScanManifest)
    (id : String) (existing : WidgetDescriptor)
    (hvid : manifestValidId e = some id)
    (hget : mapGet st.widgets id = some existing) :
    (processManifest st e).loggedDuplicateIds =
      (logDuplicateIds st id).loggedDuplicateIds := by
  simp only [processManifest, hvid, hget]

theorem processManifest_coll_warnings (st : ScanState) (e : ScanManifest)
    (id : String) (existing : WidgetDescriptor)
    (hvid : manifestValidId e = some id)
    (hget : mapGet st.widgets id = some existing) :
    (processManifest st e).dupWarnings = (logDuplicateIds st id).dupWarnings := by
  simp only [processManifest, hvid, hget]

/-- Claim C3: after a registry scan, the descriptor map has one entry
per unique valid id (its keys are nodup, so `listWidgets` holds exactly
one descriptor per id); the descriptor kept for an id is the first
user-scoped discovered bundle with that id, else the first discovered
bundle with that id (so a user-scope bundle beats a system-scope bundle
regardless of discovery order); and exactly one collision warning is
emitted for an id precisely when that id was discovered more than
once. -/
theorem c3_registry_scan_characterization :
    ∀ (es : List ScanManifest) (x : String),
      mapGet (scanAll es).widgets x = specWinner es x ∧
      ((scanAll es).widgets.map Prod.fst).Nodup ∧
      ((scanAll es).loggedDuplicateIds.contains x =
        decide (2 ≤ (entriesForId es x).length)) ∧
      (scanAll es).dupWarnings.count x = specDupWarnings es x := by
  intro es
  induction es using List.reverseRecOn with
  | nil =>
    intro x
    exact ⟨rfl, by simp [scanAll], rfl, rfl⟩
  | append_singleton es e ih =>
    intro x
    have hfold : scanAll (es ++ [e]) = processManifest (scanAll es) e := by
      simp [scanAll, List.foldl_append]
    rcases hvid : manifestValidId e with _ | id
    · -- rejected entry: nothing changes
      have hent : ∀ y, entriesForId (es ++ [e]) y = entriesForId es y := by
        intro y
        rw [entriesForId_append_single]
        simp [hvid]
      rcases ih x with ⟨ihget, ihnd, ihlog, ihcnt⟩
      rw [hfold, processManifest_invalid _ _ hvid]
      refine ⟨?_, ihnd, ?_, ?_⟩
      · rw [ihget]; unfold specWinner; rw [hent]
      · rw [ihlog, hent]
      · rw [ihcnt]; unfold specDupWarnings; rw [hent]
    · by_cases hx : x = id
      · subst hx
        rcases ih x with ⟨ihget, ihnd, ihlog, ihcnt⟩
        have hent : entriesForId (es ++ [e]) x = entriesForId es x ++ [e] := by
          rw [entriesForId_append_single]
          simp [hvid]
        rw [hfold]
        rcases hget : mapGet (scanAll es).widgets x with _ | existing
        · -- first occurrence of this id
          have hwnone : winnerOf (entriesForId es x) = none := by
            rw [hget] at ihget
            rcases hw : winnerOf (entriesForId es x) with _ | w
            · rfl
            · unfold specWinner at ihget
              rw [hw] at ihget
              cases ihget
          have hempty : entriesForId es x = [] :=
            (winnerOf_eq_none_iff _).mp hwnone
          rw [processManifest_new _ _ _ hvid hget]
          refine ⟨?_, ?_, ?_, ?_⟩
          · show mapGet (mapSet (scanAll es).widgets x (descOfManifest x e)) x =
              specWinner (es ++ [e]) x
            rw [mapGet_mapSet_self]
            unfold specWinner
            rw [hent, hempty]
            by_cases he : e.isUser <;> simp [winnerOf, he]
          · show ((mapSet (scanAll es).widgets x
              (descOfManifest x e)).map Prod.fst).Nodup
            rw [mapSet_keys_new _ _ _ hget]
            have hnm : x ∉ (scanAll es).widgets.map Prod.fst :=
              (mapGet_none_iff_not_mem_keys _ _).mp hget
            simp [List.nodup_append, ihnd, hnm]
          · show (scanAll es).loggedDuplicateIds.contains x =
              decide (2 ≤ (entriesForId (es ++ [e]) x).length)
            rw [ihlog, hent, hempty]
            simp
          · show (scanAll es).dupWarnings.count x = specDupWarnings (es ++ [e]) x
            rw [ihcnt]
            unfold specDupWarnings
            rw [hent, hempty]
            simp
        · -- collision
          have hwlt : ∃ w, winnerOf (entriesForId es x) = some w ∧
              descOfManifest x w = existing := by
            rw [hget] at ihget
            unfold specWinner at ihget
            rcases hw : winnerOf (entriesForId es x) with _ | w
            · rw [hw] at ihget; cases ihget
            · rw [hw] at ihget
              refine ⟨w, rfl, ?_⟩
              have := ihget.symm
              injection this
          rcases hwlt with ⟨w, hw, hwd⟩
          have hne2 : ¬ entriesForId es x = [] := by
            intro h
            rw [h] at hw
            cases hw
          have hlen1 : 1 ≤ (entriesForId es x).length :=
            Nat.one_le_iff_ne_zero.mpr
              (fun h => hne2 (List.eq_nil_of_length_eq_zero h))
          have hexu : existing.isUser = w.isUser := by rw [← hwd]; rfl
          refine ⟨?_, ?_, ?_, ?_⟩
          · rw [processManifest_coll_widgets _ _ _ _ hvid hget]
            unfold specWinner
            rw [hent, winnerOf_append _ w e hw, Option.map_some']
            by_cases hrep : (e.isUser && !w.isUser) = true
            · rw [if_pos hrep, if_pos (by rw [hexu]; exact hrep)]
              rw [mapGet_mapSet_self]
            · rw [if_neg hrep, if_neg (by rw [hexu]; exact hrep)]
              rw [hget, hwd]
          · rw [processManifest_coll_widgets _ _ _ _ hvid hget]
            by_cases hrep : (e.isUser && !existing.isUser) = true
            · rw [if_pos hrep,
                mapSet_keys_mem _ _ _ (by rw [hget]; intro h; cases h)]
              exact ihnd
            · rw [if_neg hrep]; exact ihnd
          · rw [processManifest_coll_logged _ _ _ _ hvid hget]
            unfold logDuplicateIds
            by_cases hc : (scanAll es).loggedDuplicateIds.contains x
            · rw [if_pos hc]
              rw [ihlog] at hc ⊢
              have h2 : 2 ≤ (entriesForId es x).length := of_decide_eq_true hc
              rw [hent]
              simp only [List.length_append, List.length_cons, List.length_nil]
              rw [hc]
              have h3 : 2 ≤ (entriesForId es x).length + (0 + 1) := by omega
              rw [decide_eq_true h3]
            · rw [if_neg hc]
              have hn2 : ¬ 2 ≤ (entriesForId es x).length := by
                intro h2
                rw [ihlog] at hc
                exact hc (decide_eq_true h2)
              rw [hent]
              simp only [List.length_append, List.length_cons, List.length_nil]
              have h3 : 2 ≤ (entriesForId es x).length + (0 + 1) := by omega
              rw [decide_eq_true h3]
              simp
          · rw [processManifest_coll_warnings _ _ _ _ hvid hget]
            unfold logDuplicateIds
            unfold specDupWarnings
            rw [hent]
            simp only [List.length_append, List.length_cons, List.length_nil]
            have h3 : 2 ≤ (entriesForId es x).length + (0 + 1) := by omega
            rw [if_pos h3]
            by_cases hc : (scanAll es).loggedDuplicateIds.contains x
            · rw [if_pos hc, ihcnt]
              rw [ihlog] at hc
              have h2 : 2 ≤ (entriesForId es x).length := of_decide_eq_true hc
              unfold specDupWarnings
              rw [if_pos h2]
            · rw [if_neg hc]
              have hn2 : ¬ 2 ≤ (entriesForId es x).length := by
                intro h2
                rw [ihlog] at hc
                exact hc (decide_eq_true h2)
              show ((scanAll es).dupWarnings ++ [x]).count x = 1
              rw [List.count_append, ihcnt]
              unfold specDupWarnings
              rw [if_neg hn2]
              simp
      · -- a different id: only the entry for `id` can change
        rcases ih x with ⟨ihget, ihnd, ihlog, ihcnt⟩
        have hxid : ¬ id = x := fun h => hx h.symm
        have hent : entriesForId (es ++ [e]) x = entriesForId es x := by
          rw [entriesForId_append_single]
          simp [hvid, hxid]
        have hspec : specWinner (es ++ [e]) x = specWinner es x := by
          unfold specWinner; rw [hent]
        have hdc : specDupWarnings (es ++ [e]) x = specDupWarnings es x := by
          unfold specDupWarnings; rw [hent]
        rw [hfold, hspec, hdc, hent]
        rcases hget : mapGet (scanAll es).widgets id with _ | existing
        · rw [processManifest_new _ _ _ hvid hget]
          refine ⟨?_, ?_, ihlog, ihcnt⟩
          · show mapGet (mapSet (scanAll es).widgets id (descOfManifest id e)) x =
              specWinner es x
            rw [mapGet_mapSet_other _ _ _ _ hx]
            exact ihget
          · show ((mapSet (scanAll es).widgets id
              (descOfManifest id e)).map Prod.fst).Nodup
            rw [mapSet_keys_new _ _ _ hget]
            have hnm : id ∉ (scanAll es).widgets.map Prod.fst :=
              (mapGet_none_iff_not_mem_keys _ _).mp hget
            simp [List.nodup_append, ihnd, hnm]
        · refine ⟨?_, ?_, ?_, ?_⟩
          · rw [processManifest_coll_widgets _ _ _ _ hvid hget]
            by_cases hrep : (e.isUser && !existing.isUser) = true
            · rw [if_pos hrep, mapGet_mapSet_other _ _ _ _ hx]
              exact ihget
            · rw [if_neg hrep]; exact ihget
          · rw [processManifest_coll_widgets _ _ _ _ hvid hget]
            by_cases hrep : (e.isUser && !existing.isUser) = true
            · rw [if_pos hrep,
                mapSet_keys_mem _ _ _ (by rw [hget]; intro h; cases h)]
              exact ihnd
            · rw [if_neg hrep]; exact ihnd
          · rw [processManifest_coll_logged _ _ _ _ hvid hget]
            unfold logDuplicateIds
            by_cases hc : (scanAll es).loggedDuplicateIds.contains id
            · rw [if_pos hc]; exact ihlog
            · rw [if_neg hc]
              show ((scanAll es).loggedDuplicateIds ++ [id]).contains x = _
              rw [← ihlog]
              simp [hx]
          · rw [processManifest_coll_warnings _ _ _ _ hvid hget]
            unfold logDuplicateIds
            by_cases hc : (scanAll es).loggedDuplicateIds.contains id
            · rw [if_pos hc]; exact ihcnt
            · rw [if_neg hc]
              show ((scanAll es).dupWarnings ++ [id]).count x = _
              rw [List.count_append, ← ihcnt]
              simp [List.count_cons, hxid]

/-! ## C5: pre-ready queueing and flush order -/

theorem runHostCalls_queues (calls : List HostCall) :
    ∀ (h : HWHost), h.destroyed = false → h.webView = none →
      runHostCalls h calls =
        { h with
          pendingPatches := h.pendingPatches ++ patchesOf calls
          pendingMsgs := h.pendingMsgs ++ msgsOf calls } := by
  induction calls with
  | nil => intro h _ _; simp [runHostCalls, patchesOf, msgsOf]
  | cons c rest ih =>
    intro h hd hw
    have hstep : applyHostCall h c =
        (match c with
          | .patchCall p => { h with pendingPatches := h.pendingPatches ++ [p] }
          | .msgCall m => { h with pendingMsgs := h.pendingMsgs ++ [m] }) := by
      cases c with
      | patchCall p => simp [applyHostCall, hostSetHostStatePatch, hd, hw]
      | msgCall m => simp [applyHostCall, hostPostMessage, hd, hw]
    cases c with
    | patchCall p =>
      have : runHostCalls h (.patchCall p :: rest) =
          runHostCalls { h with pendingPatches := h.pendingPatches ++ [p] } rest := by
        simp [runHostCalls, hstep]
      rw [this, ih _ (by simp [hd]) (by simp [hw])]
      simp [patchesOf, msgsOf]
    | msgCall m =>
      have : runHostCalls h (.msgCall m :: rest) =
          runHostCalls { h with pendingMsgs := h.pendingMsgs ++ [m] } rest := by
        simp [runHostCalls, hstep]
      rw [this, ih _ (by simp [hd]) (by simp [hw])]
      simp [patchesOf, msgsOf]

theorem foldl_sendHostStatePatch (ps : List HostStatePatch) :
    ∀ (h : HWHost), h.destroyed = false → h.webView = some () →
      ps.foldl sendHostStatePatch h =
        { h with delivered := h.delivered ++ ps.map HostEvent.patchEv } := by
  induction ps with
  | nil => intro h _ _; simp
  | cons p rest ih =>
    intro h hd hw
    have hstep : sendHostStatePatch h p =
        { h with delivered := h.delivered ++ [HostEvent.patchEv p] } := by
      simp [sendHostStatePatch, evaluateScriptEvent, hd, hw]
    simp only [List.foldl_cons, hstep]
    rw [ih _ (by simp [hd]) (by simp [hw])]
    simp

theorem foldl_sendPostMessage (ms : List DownMsg) :
    ∀ (h : HWHost), h.destroyed = false → h.webView = some () →
      ms.foldl sendPostMessage h =
        { h with delivered := h.delivered ++ ms.map HostEvent.msgEv } := by
  induction ms with
  | nil => intro h _ _; simp
  | cons m rest ih =>
    intro h hd hw
    have hstep : sendPostMessage h m =
        { h with delivered := h.delivered ++ [HostEvent.msgEv m] } := by
      simp [sendPostMessage, evaluateScriptEvent, hd, hw]
    simp only [List.foldl_cons, hstep]
    rw [ih _ (by simp [hd]) (by simp [hw])]
    simp

theorem flushPendingHostStatePatches_ready (h : HWHost)
    (hd : h.destroyed = false) (hw : h.webView = some ()) :
    flushPendingHostStatePatches h =
      { h with
        delivered := h.delivered ++ h.pendingPatches.map HostEvent.patchEv
        pendingPatches := [] } := by
  unfold flushPendingHostStatePatches
  rw [foldl_sendHostStatePatch _ _ hd hw]

theorem flushPendingMessages_ready (h : HWHost)
    (hd : h.destroyed = false) (hw : h.webView = some ()) :
    flushPendingMessages h =
      { h with
        delivered := h.delivered ++ h.pendingMsgs.map HostEvent.msgEv
        pendingMsgs := [] } := by
  unfold flushPendingMessages
  rw [foldl_sendPostMessage _ _ hd hw]

theorem hostBecomeReady_ready (h : HWHost) (hd : h.destroyed = false)
    (url : Option String) :
    hostBecomeReady h url =
      { h with
        webView := some ()
        uri := match url with | some s => some s | none => h.uri
        fallbackReason :=
          match url with
          | some _ => h.fallbackReason
          | none => some "Missing entry/prefs URL"
        delivered :=
          h.delivered ++ h.pendingPatches.map HostEvent.patchEv ++
            h.pendingMsgs.map HostEvent.msgEv
        pendingPatches := []
        pendingMsgs := [] } := by
  have key : ∀ (g : HWHost), g.destroyed = false → g.webView = some () →
      flushPendingMessages (flushPendingHostStatePatches g) =
        { g with
          delivered :=
            g.delivered ++ g.pendingPatches.map HostEvent.patchEv ++
              g.pendingMsgs.map HostEvent.msgEv
          pendingPatches := []
          pendingMsgs := [] } := by
    intro g hgd hgw
    rw [flushPendingHostStatePatches_ready g hgd hgw]
    rw [flushPendingMessages_ready _ (by simp [hgd]) (by simp [hgw])]
  cases url with
  | none =>
    simp only [hostBecomeReady]
    rw [key _ (by simp [hd]) (by simp)]
  | some s =>
    simp only [hostBecomeReady]
    rw [key _ (by simp [hd]) (by simp)]

/-- Counterexample to claim C5 as stated: a `postMessage` issued before
a `setHostStatePatch` on a not-yet-ready host is delivered after it (the
flush replays the patch queue before the message queue), so queued
deliveries do not follow the original call order across the two kinds. -/
theorem c5_counterexample_interleaved_order :
    (hostBecomeReady (runHostCalls c5ExHost c5ExCalls)
      (some "ding-widget://X/index.html")).delivered ≠
      c5ExCalls.map callEvent := by decide

/-- Claim C5 as amended: every message/patch queued before readiness is
delivered exactly once at the instant the surface becomes ready, in
original call order within each kind, with all queued host-state patches
flushed before all queued messages; calls issued after readiness are
delivered immediately without queuing. -/
theorem c5_amended_queue_flush (h : HWHost) (calls : List HostCall)
    (url : Option String)
    (hd : h.destroyed = false) (hw : h.webView = none)
    (hp : h.pendingPatches = []) (hm : h.pendingMsgs = [])
    (hdel : h.delivered = []) :
    (hostBecomeReady (runHostCalls h calls) url).delivered =
      (patchesOf calls).map HostEvent.patchEv ++
        (msgsOf calls).map HostEvent.msgEv ∧
    (hostBecomeReady (runHostCalls h calls) url).pendingPatches = [] ∧
    (hostBecomeReady (runHostCalls h calls) url).pendingMsgs = [] ∧
    (∀ p, (hostSetHostStatePatch (hostBecomeReady (runHostCalls h calls) url)
        (some p)).delivered =
      (hostBecomeReady (runHostCalls h calls) url).delivered ++
        [HostEvent.patchEv p]) ∧
    (∀ mg, (hostPostMessage (hostBecomeReady (runHostCalls h calls) url)
        (some mg)).delivered =
      (hostBecomeReady (runHostCalls h calls) url).delivered ++
        [HostEvent.msgEv mg]) := by
  have hq : runHostCalls h calls =
      { h with
        pendingPatches := [] ++ patchesOf calls
        pendingMsgs := [] ++ msgsOf calls } := by
    rw [runHostCalls_queues calls h hd hw, hp, hm]
  rw [hq, hostBecomeReady_ready _ (by simp [hd]) url]
  refine ⟨by simp [hdel], by simp, by simp, ?_, ?_⟩
  · intro p
    simp [hostSetHostStatePatch, sendHostStatePatch, evaluateScriptEvent, hd]
  · intro mg
    simp [hostPostMessage, sendPostMessage, evaluateScriptEvent, hd]

/-- Witness for the amended C5 at the concrete call sequence. -/
theorem c5_amended_queue_flush_witness :
    c5ExHost.destroyed = false ∧
    (hostBecomeReady (runHostCalls c5ExHost c5ExCalls)
        (some "ding-widget://X/index.html")).delivered =
      (patchesOf c5ExCalls).map HostEvent.patchEv ++
        (msgsOf c5ExCalls).map HostEvent.msgEv :=
  ⟨rfl,
    (c5_amended_queue_flush c5ExHost c5ExCalls
      (some "ding-widget://X/index.html") rfl rfl rfl rfl rfl).1⟩

/-! ## C9: destroy semantics -/

/-- Counterexample to claim C9 as stated: a second `destroy()` call on a
host dereferences the nulled `_frame` and raises a TypeError, so
subsequent destroy calls are not error-free. -/
theorem c9_counterexample_second_destroy_raises :
    (destroyHost (destroyHost c9ExHost).fst).snd = some JsError.typeError := by
  decide

/-- Claim C9 as amended: destroying a fully constructed host succeeds,
leaves it permanently non-alive, drops the queued host-state patches,
and later patch/message calls neither raise nor deliver anything (they
only accumulate in the dead queues); but a second `destroy()` call
raises a TypeError instead of being error-free. -/
theorem c9_amended_destroy (h : HWHost) (_hd : h.destroyed = false)
    (hf : h.frame = some ()) (hw : h.webView = some ()) :
    (destroyHost h).snd = none ∧
    isAlive (destroyHost h).fst = false ∧
    (destroyHost h).fst.pendingPatches = [] ∧
    (∀ p, (hostSetHostStatePatch (destroyHost h).fst (some p)).delivered =
        (destroyHost h).fst.delivered ∧
      isAlive (hostSetHostStatePatch (destroyHost h).fst (some p)) = false) ∧
    (∀ mg, (hostPostMessage (destroyHost h).fst (some mg)).delivered =
        (destroyHost h).fst.delivered ∧
      isAlive (hostPostMessage (destroyHost h).fst (some mg)) = false) ∧
    (destroyHost (destroyHost h).fst).snd = some JsError.typeError ∧
    isAlive (destroyHost (destroyHost h).fst).fst = false := by
  have hdest : destroyHost h =
      ⟨{ h with
          destroyed := true
          webView := none
          frame := none
          pendingPatches := [] }, none⟩ := by
    unfold destroyHost
    simp [hf, hw]
  rw [hdest]
  refine ⟨rfl, rfl, rfl, ?_, ?_, ?_, ?_⟩
  · intro p
    exact ⟨by simp [hostSetHostStatePatch], by simp [hostSetHostStatePatch, isAlive]⟩
  · intro mg
    exact ⟨by simp [hostPostMessage], by simp [hostPostMessage, isAlive]⟩
  · rfl
  · rfl

/-- Witness for the amended C9 at a concrete ready host. -/
theorem c9_amended_destroy_witness :
    c9ExHost.destroyed = false ∧
    (destroyHost c9ExHost).snd = none ∧
    (destroyHost (destroyHost c9ExHost).fst).snd = some JsError.typeError :=
  ⟨by decide,
    (c9_amended_destroy c9ExHost (by decide) (by decide) (by decide)).1,
    (c9_amended_destroy c9ExHost (by decide) (by decide)
      (by decide)).2.2.2.2.2.1⟩

/-! ## C7: loadState with null or missing instances is a no-op -/

/-- Claim C7: `loadState(null)` and `loadState({version:1})` (no
`instances` array) neither add nor remove any live instance and leave
the whole manager — every instance record included — unchanged, raising
nothing. -/
theorem c7_loadState_null_or_missing_instances_noop (m : Manager) :
    loadState m none = (m, none) ∧
    loadState m (some c7ExDoc) = (m, none) ∧
    (loadState m none).fst.instances = m.instances ∧
    (loadState m (some c7ExDoc)).fst.instances = m.instances := by
  refine ⟨rfl, rfl, rfl, rfl⟩

/-! ## C10: exportState is a pure observation -/

/-- Claim C10: `exportState()` is a pure observation of the manager: in
state-passing form the manager it returns alongside the fresh document
is the manager it was given, so the instance map holds exactly the same
ids and every instance record's fields are untouched. -/
theorem c10_exportState_pure_observation (m : Manager) :
    (exportStateS m).snd = m ∧
    (exportStateS m).snd.instances = m.instances ∧
    ((exportStateS m).snd.instances.map (fun i => i.instanceId) =
      m.instances.map (fun i => i.instanceId)) ∧
    (exportStateS m).fst = exportState m := by
  refine ⟨rfl, rfl, rfl, rfl⟩

/-! ## C6: updateConfig replaces the config and broadcasts it -/

theorem find?_map_update_self (l : List WInstance) (id : String)
    (f : WInstance → WInstance)
    (hkey : ∀ i, (f i).instanceId = i.instanceId) :
    (l.map (fun i => if i.instanceId == id then f i else i)).find?
        (fun i => i.instanceId == id) =
      (l.find? (fun i => i.instanceId == id)).map f := by
  induction l with
  | nil => rfl
  | cons i l ih =>
    by_cases hi : i.instanceId = id
    · have hb : (i.instanceId == id) = true := beq_iff_eq.mpr hi
      have hbp : (fun j : WInstance => j.instanceId == id) i = true := hb
      have hbf : (fun j : WInstance => j.instanceId == id) (f i) = true := by
        show ((f i).instanceId == id) = true
        rw [hkey i]; exact hb
      simp only [List.map_cons, hb, if_true]
      rw [@List.find?_cons_of_pos WInstance (fun j => j.instanceId == id) (f i) _ hbf,
        @List.find?_cons_of_pos WInstance (fun j => j.instanceId == id) i _ hbp]
      rfl
    · have hb : (i.instanceId == id) = false := by simp [hi]
      have hbn : ¬ (fun j : WInstance => j.instanceId == id) i = true := by
        show ¬ (i.instanceId == id) = true
        simp [hi]
      simp only [List.map_cons, hb, Bool.false_eq_true, if_false]
      rw [@List.find?_cons_of_neg WInstance (fun j => j.instanceId == id) i _ hbn,
        @List.find?_cons_of_neg WInstance (fun j => j.instanceId == id) i _ hbn, ih]

theorem find?_map_update_other (l : List WInstance) (id x : String)
    (f : WInstance → WInstance)
    (hkey : ∀ i, (f i).instanceId = i.instanceId)
    (hx : ¬ x = id) :
    (l.map (fun i => if i.instanceId == id then f i else i)).find?
        (fun i => i.instanceId == x) =
      l.find? (fun i => i.instanceId == x) := by
  induction l with
  | nil => rfl
  | cons i l ih =>
    by_cases hi : i.instanceId = id
    · have hnx : ¬ i.instanceId = x := by
        rw [hi]; exact fun hh => hx hh.symm
      have hb : (i.instanceId == id) = true := beq_iff_eq.mpr hi
      have hn1 : ¬ (fun j : WInstance => j.instanceId == x) (f i) = true := by
        show ¬ ((f i).instanceId == x) = true
        simp [hkey i, hnx]
      have hn2 : ¬ (fun j : WInstance => j.instanceId == x) i = true := by
        show ¬ (i.instanceId == x) = true
        simp [hnx]
      simp only [List.map_cons, hb, if_true]
      rw [@List.find?_cons_of_neg WInstance (fun j => j.instanceId == x) (f i) _ hn1,
        @List.find?_cons_of_neg WInstance (fun j => j.instanceId == x) i _ hn2, ih]
    · have hb : (i.instanceId == id) = false := by simp [hi]
      simp only [List.map_cons, hb, Bool.false_eq_true, if_false]
      by_cases hix : i.instanceId = x
      · have hp : (fun j : WInstance => j.instanceId == x) i = true := by
          show (i.instanceId == x) = true
          simp [hix]
        rw [@List.find?_cons_of_pos WInstance (fun j => j.instanceId == x) i _ hp,
          @List.find?_cons_of_pos WInstance (fun j => j.instanceId == x) i _ hp]
      · have hn : ¬ (fun j : WInstance => j.instanceId == x) i = true := by
          show ¬ (i.instanceId == x) = true
          simp [hix]
        rw [@List.find?_cons_of_neg WInstance (fun j => j.instanceId == x) i _ hn,
          @List.find?_cons_of_neg WInstance (fun j => j.instanceId == x) i _ hn, ih]

theorem getInstance_set_self (m : Manager) (id : String)
    (f : WInstance → WInstance)
    (hkey : ∀ i, (f i).instanceId = i.instanceId) :
    getInstance (setInstanceFields m id f) id = (getInstance m id).map f := by
  unfold getInstance setInstanceFields
  exact find?_map_update_self m.instances id f hkey

theorem getInstance_set_other (m : Manager) (id x : String)
    (f : WInstance → WInstance)
    (hkey : ∀ i, (f i).instanceId = i.instanceId)
    (hx : ¬ x = id) :
    getInstance (setInstanceFields m id f) x = getInstance m x := by
  unfold getInstance setInstanceFields
  exact find?_map_update_other m.instances id x f hkey hx

/-- Claim C6: an `updateConfig` message with an object config for a live
instance `X` whose surface URL still has the `ding-widget://X/` origin
replaces `X`'s config with exactly the supplied object and sends a
`configChanged` message carrying that config to `X`'s widget surface
and, when the preferences window is currently open for `X` (with a live
preferences surface), to the preferences surface as well; when the
preferences window is not showing `X`, the context is untouched. -/
theorem c6_updateConfig_replaces_and_broadcasts (w : World) (X : String)
    (c : Config) (md rid : Option String) (inst : WInstance) (h : HWHost)
    (hinst : getInstance w.manager X = some inst)
    (hhost : inst.host = some h)
    (hready : h.webView = some ())
    (hdest : h.destroyed = false)
    (huri : strBegins ("ding-widget://" ++ X ++ "/") (h.uri.getD "") = true) :
    ((getInstance (dispatchWidgetMessage w
        ⟨some X, some "updateConfig", some c, rid, md⟩).manager X).map
      (fun i => i.config) = some c) ∧
    (((getInstance (dispatchWidgetMessage w
        ⟨some X, some "updateConfig", some c, rid, md⟩).manager X).bind
          (fun i => i.host)).map (fun g => g.delivered) =
      some (h.delivered ++
        [HostEvent.msgEv (DownMsg.configChanged X c "configSaved" md)])) ∧
    (∀ ph, w.ctx.prefsHost = some ph → w.ctx.prefsInstanceId = some X →
      ph.destroyed = false → ph.webView = some () →
      ((dispatchWidgetMessage w
          ⟨some X, some "updateConfig", some c, rid, md⟩).ctx.prefsHost).map
        (fun g => g.delivered) =
      some (ph.delivered ++
        [HostEvent.msgEv (DownMsg.configChanged X c "configSaved" md)])) ∧
    (¬ w.ctx.prefsInstanceId = some X →
      (dispatchWidgetMessage w
        ⟨some X, some "updateConfig", some c, rid, md⟩).ctx = w.ctx) := by
  have hkeyc : ∀ i : WInstance,
      (({ i with config := c } : WInstance)).instanceId = i.instanceId :=
    fun i => rfl
  have hm1 : updateInstanceConfig w.manager X c =
      setInstanceFields w.manager X (fun i => { i with config := c }) := by
    unfold updateInstanceConfig
    rw [hinst]
  have hget1 : getInstance (updateInstanceConfig w.manager X c) X =
      some { inst with config := c } := by
    rw [hm1, getInstance_set_self _ _ _ hkeyc, hinst]
    rfl
  have hdisp : dispatchWidgetMessage w ⟨some X, some "updateConfig", some c,
      rid, md⟩ =
      pushConfigChangedForInstance
        { manager := updateInstanceConfig w.manager X c, ctx := w.ctx } X md := by
    simp only [dispatchWidgetMessage, hinst, hhost, hready, huri, if_pos]
  have hmsg : pushConfigChangedForInstance
      { manager := updateInstanceConfig w.manager X c, ctx := w.ctx } X md =
      { manager := postToWidget (updateInstanceConfig w.manager X c) X
          (DownMsg.configChanged X c "configSaved" md)
        ctx := postToPrefs w.ctx X
          (DownMsg.configChanged X c "configSaved" md) } := by
    unfold pushConfigChangedForInstance
    show (match getInstance (updateInstanceConfig w.manager X c) X with
      | none => _
      | some inst => _) = _
    rw [hget1]
  have hsend : hostPostMessage h
      (some (DownMsg.configChanged X c "configSaved" md)) =
      { h with delivered := h.delivered ++
          [HostEvent.msgEv (DownMsg.configChanged X c "configSaved" md)] } := by
    simp [hostPostMessage, sendPostMessage, evaluateScriptEvent, hdest, hready]
  have hwid : postToWidget (updateInstanceConfig w.manager X c) X
      (DownMsg.configChanged X c "configSaved" md) =
      setInstanceHost (updateInstanceConfig w.manager X c) X
        (some { h with delivered := h.delivered ++
          [HostEvent.msgEv (DownMsg.configChanged X c "configSaved" md)] }) := by
    unfold postToWidget
    rw [hget1]
    simp only [hhost, hsend]
  have hkeyh : ∀ i : WInstance,
      (({ i with host := some { h with delivered := h.delivered ++
        [HostEvent.msgEv (DownMsg.configChanged X c "configSaved" md)] } } :
          WInstance)).instanceId = i.instanceId := fun i => rfl
  have hget2 : getInstance (postToWidget (updateInstanceConfig w.manager X c) X
      (DownMsg.configChanged X c "configSaved" md)) X =
      some { inst with
        config := c
        host := some { h with delivered := h.delivered ++
          [HostEvent.msgEv (DownMsg.configChanged X c "configSaved" md)] } } := by
    rw [hwid]
    unfold setInstanceHost
    rw [getInstance_set_self _ _ _ hkeyh, hget1]
    rfl
  rw [hdisp, hmsg]
  refine ⟨?_, ?_, ?_, ?_⟩
  · show (getInstance (postToWidget (updateInstanceConfig w.manager X c) X
        (DownMsg.configChanged X c "configSaved" md)) X).map
        (fun i => i.config) = some c
    rw [hget2]
    rfl
  · show ((getInstance (postToWidget (updateInstanceConfig w.manager X c) X
        (DownMsg.configChanged X c "configSaved" md)) X).bind
          (fun i => i.host)).map (fun g => g.delivered) = _
    rw [hget2]
    rfl
  · intro ph hph hpid hphd hphw
    show ((postToPrefs w.ctx X
        (DownMsg.configChanged X c "configSaved" md)).prefsHost).map
        (fun g => g.delivered) = _
    unfold postToPrefs
    simp only [hph]
    rw [if_pos hpid]
    simp [hostPostMessage, sendPostMessage, evaluateScriptEvent, hphd, hphw]
  · intro hnot
    show postToPrefs w.ctx X (DownMsg.configChanged X c "configSaved" md) = w.ctx
    unfold postToPrefs
    rcases hph : w.ctx.prefsHost with _ | ph
    · rfl
    · simp [hnot]

/-- Witness for C6 at a concrete world with the preferences window open
for the same instance. -/
theorem c6_updateConfig_replaces_and_broadcasts_witness :
    getInstance c6ExWorld.manager "X" = some c6ExInstance ∧
    ((getInstance (dispatchWidgetMessage c6ExWorld c6ExPayload).manager
        "X").map (fun i => i.config) = some [("color", "red")]) ∧
    (((dispatchWidgetMessage c6ExWorld c6ExPayload).ctx.prefsHost).map
        (fun g => g.delivered) =
      some [HostEvent.msgEv (DownMsg.configChanged "X" [("color", "red")]
        "configSaved" (some "widget"))]) :=
  ⟨by decide,
    (c6_updateConfig_replaces_and_broadcasts c6ExWorld "X" [("color", "red")]
      (some "widget") none c6ExInstance c6ExHost (by decide) (by decide)
      (by decide) (by decide) (by decide)).1,
    (c6_updateConfig_replaces_and_broadcasts c6ExWorld "X" [("color", "red")]
      (some "widget") none c6ExInstance c6ExHost (by decide) (by decide)
      (by decide) (by decide) (by decide)).2.2.1 c6ExPrefsHost (by decide)
      (by decide) (by decide) (by decide)⟩

/-! ## C8: preferences window lifecycle -/

theorem closePreferencesIfAny_ok (ctx : WebCtx)
    (hinv : prefsInvB ctx = true) (hok : prefsHostOkB ctx = true) :
    (closePreferencesIfAny ctx).snd = none ∧
    (closePreferencesIfAny ctx).fst.prefsWindow = none ∧
    (closePreferencesIfAny ctx).fst.openWindows = [] ∧
    (closePreferencesIfAny ctx).fst.nextWin = ctx.nextWin ∧
    (closePreferencesIfAny ctx).fst.uiEvents =
      (match ctx.prefsWindow with
        | some w => ctx.uiEvents ++ [CtxEvent.destroyWin w]
        | none => ctx.uiEvents) ∧
    prefsInvB (closePreferencesIfAny ctx).fst = true := by
  rcases hpw : ctx.prefsWindow with _ | w
  · have hop : ctx.openWindows = [] := by
      unfold prefsInvB at hinv
      rw [hpw] at hinv
      simpa using hinv
    have hres : closePreferencesIfAny ctx = (ctx, none) := by
      unfold closePreferencesIfAny
      rw [hpw]
    rw [hres]
    refine ⟨rfl, hpw, hop, rfl, rfl, ?_⟩
    unfold prefsInvB
    rw [hpw, hop]
    rfl
  · have hop : ctx.openWindows = [w] ∧ w < ctx.nextWin := by
      unfold prefsInvB at hinv
      rw [hpw] at hinv
      simpa using hinv
    have hfilter : ctx.openWindows.filter (fun n => !(n == w)) = [] := by
      rw [hop.1]
      simp
    rcases hph : ctx.prefsHost with _ | ph
    · have hres : closePreferencesIfAny ctx =
          ({ ctx with
              prefsHost := none
              prefsWindow := none
              prefsInstanceId := none
              openWindows := ctx.openWindows.filter (fun n => !(n == w))
              uiEvents := ctx.uiEvents ++ [CtxEvent.destroyWin w] }, none) := by
        unfold closePreferencesIfAny
        rw [hpw]
        simp only [hph]
      rw [hres, hfilter]
      exact ⟨rfl, rfl, rfl, rfl, rfl, rfl⟩
    · have hfw : ph.frame = some () ∧ ph.webView = some () := by
        unfold prefsHostOkB at hok
        simp only [hph] at hok
        rcases hf : ph.frame with _ | uf
        · rw [hf] at hok
          simp at hok
        · rcases hv : ph.webView with _ | uv
          · rw [hv] at hok
            simp at hok
          · cases uf
            cases uv
            exact ⟨rfl, rfl⟩
      have hdest : destroyHost ph =
          ⟨{ ph with
              destroyed := true
              webView := none
              frame := none
              pendingPatches := [] }, none⟩ := by
        unfold destroyHost
        simp [hfw.1, hfw.2]
      have hres : closePreferencesIfAny ctx =
          ({ ctx with
              prefsHost := none
              prefsWindow := none
              prefsInstanceId := none
              openWindows := ctx.openWindows.filter (fun n => !(n == w))
              uiEvents := ctx.uiEvents ++ [CtxEvent.destroyWin w] }, none) := by
        unfold closePreferencesIfAny
        rw [hpw]
        simp only [hph, hdest]
      rw [hres, hfilter]
      exact ⟨rfl, rfl, rfl, rfl, rfl, rfl⟩

/-- Claim C8: at most one preferences window is open process-wide — the
lifecycle operations preserve the invariant that the open-window list is
exactly the tracked window — and: opening for the instance whose window
is already open only re-presents that window; opening for a different
instance (that is selected and live) first closes the existing window,
then creates and presents a fresh one; opening for an instance that is
not the currently selected instance is a no-op. -/
theorem c8_preferences_window_lifecycle (m : Manager) (ctx : WebCtx)
    (s u : String)
    (hinv : prefsInvB ctx = true) (hok : prefsHostOkB ctx = true) :
    (∀ iid uri, prefsInvB (openPreferencesForInstance m ctx iid uri).fst = true ∧
      (openPreferencesForInstance m ctx iid uri).snd = none) ∧
    (prefsInvB (closePreferencesIfAny ctx).fst = true ∧
      (closePreferencesIfAny ctx).snd = none) ∧
    (∀ w, ctx.prefsWindow = some w → ctx.prefsInstanceId = some s →
      m.selectedInstanceId = some s → ¬ s = "" → ¬ u = "" →
      (openPreferencesForInstance m ctx (some s) (some u)).fst =
        { ctx with uiEvents := ctx.uiEvents ++ [CtxEvent.presentWin w] }) ∧
    (∀ w inst, ctx.prefsWindow = some w → ¬ ctx.prefsInstanceId = some s →
      m.selectedInstanceId = some s → ¬ s = "" → ¬ u = "" →
      getInstance m s = some inst →
      (openPreferencesForInstance m ctx (some s) (some u)).fst.prefsWindow =
          some ctx.nextWin ∧
      (openPreferencesForInstance m ctx (some s)
          (some u)).fst.prefsInstanceId = some s ∧
      (openPreferencesForInstance m ctx (some s) (some u)).fst.openWindows =
          [ctx.nextWin] ∧
      ¬ w = ctx.nextWin ∧
      (openPreferencesForInstance m ctx (some s) (some u)).fst.uiEvents =
        ctx.uiEvents ++ [CtxEvent.destroyWin w, CtxEvent.createWin ctx.nextWin,
          CtxEvent.presentWin ctx.nextWin]) ∧
    (∀ iid uri, ¬ m.selectedInstanceId = iid →
      openPreferencesForInstance m ctx iid uri = (ctx, none)) := by
  have hclose := closePreferencesIfAny_ok ctx hinv hok
  have hfreshInv : ∀ iid uri,
      prefsInvB (openPreferencesFresh m ctx iid uri).fst = true ∧
      (openPreferencesFresh m ctx iid uri).snd = none := by
    intro iid uri
    unfold openPreferencesFresh
    rcases hcl : closePreferencesIfAny ctx with ⟨ctx1, err⟩
    have herr : err = none := by rw [hcl] at hclose; exact hclose.1
    subst herr
    have h1pw : ctx1.prefsWindow = none := by rw [hcl] at hclose; exact hclose.2.1
    have h1ow : ctx1.openWindows = [] := by rw [hcl] at hclose; exact hclose.2.2.1
    rcases hgi : getInstance m (iid.getD "") with _ | inst
    · constructor
      · show prefsInvB ctx1 = true
        unfold prefsInvB
        rw [h1pw, h1ow]
        rfl
      · rfl
    · constructor
      · unfold prefsInvB
        show ((ctx1.openWindows ++ [ctx1.nextWin]) == [ctx1.nextWin] &&
          decide (ctx1.nextWin < ctx1.nextWin + 1)) = true
        rw [h1ow]
        simp
      · rfl
  refine ⟨?_, ⟨hclose.2.2.2.2.2, hclose.1⟩, ?_, ?_, ?_⟩
  · intro iid uri
    unfold openPreferencesForInstance
    by_cases hf1 : (jsFalsyS iid || jsFalsyS uri) = true
    · rw [if_pos hf1]
      exact ⟨hinv, rfl⟩
    · rw [if_neg hf1]
      by_cases hf2 : (jsFalsyS m.selectedInstanceId ||
          !(m.selectedInstanceId == iid)) = true
      · rw [if_pos (by simpa using hf2)]
        exact ⟨hinv, rfl⟩
      · rw [if_neg (by simpa using hf2)]
        rcases hpw : ctx.prefsWindow with _ | w
        · exact hfreshInv iid uri
        · simp only []
          by_cases hpid : ctx.prefsInstanceId = iid
          · rw [if_pos hpid]
            refine ⟨?_, rfl⟩
            show (ctx.openWindows == [w] && decide (w < ctx.nextWin)) = true
            unfold prefsInvB at hinv
            rw [hpw] at hinv
            exact hinv
          · rw [if_neg hpid]
            exact hfreshInv iid uri
  · intro w hpw hpid hsel hs hu
    unfold openPreferencesForInstance
    rw [if_neg (by simp [jsFalsyS, hs, hu]),
      if_neg (by simp [jsFalsyS, hsel, hs]), hpw]
    simp only []
    rw [if_pos hpid]
  · intro w inst hpw hpid hsel hs hu hgi
    have hwlt : w < ctx.nextWin := by
      unfold prefsInvB at hinv
      rw [hpw] at hinv
      simp at hinv
      exact hinv.2
    have hopen : openPreferencesForInstance m ctx (some s) (some u) =
        openPreferencesFresh m ctx (some s) (some u) := by
      unfold openPreferencesForInstance
      rw [if_neg (by simp [jsFalsyS, hs, hu]),
        if_neg (by simp [jsFalsyS, hsel, hs]), hpw]
      simp only []
      rw [if_neg hpid]
    rcases hcl : closePreferencesIfAny ctx with ⟨ctx1, err⟩
    have herr : err = none := by rw [hcl] at hclose; exact hclose.1
    subst herr
    have h1pw : ctx1.prefsWindow = none := by rw [hcl] at hclose; exact hclose.2.1
    have h1ow : ctx1.openWindows = [] := by rw [hcl] at hclose; exact hclose.2.2.1
    have h1nw : ctx1.nextWin = ctx.nextWin := by
      rw [hcl] at hclose; exact hclose.2.2.2.1
    have h1ev : ctx1.uiEvents = ctx.uiEvents ++ [CtxEvent.destroyWin w] := by
      rw [hcl] at hclose
      have := hclose.2.2.2.2.1
      rw [hpw] at this
      exact this
    have hfr : openPreferencesFresh m ctx (some s) (some u) =
        ({ ctx1 with
            nextWin := ctx1.nextWin + 1
            openWindows := ctx1.openWindows ++ [ctx1.nextWin]
            prefsHost := some (mkHtmlWidgetHost ((some s : Option String).getD "")
              inst.widgetId "prefs" (some u))
            prefsWindow := some ctx1.nextWin
            prefsInstanceId := some s
            uiEvents := ctx1.uiEvents ++ [CtxEvent.createWin ctx1.nextWin,
              CtxEvent.presentWin ctx1.nextWin] }, none) := by
      unfold openPreferencesFresh
      rw [hcl]
      simp only [Option.getD_some, hgi]
    rw [hopen, hfr]
    refine ⟨by rw [h1nw], rfl, ?_, ?_, ?_⟩
    · show ctx1.openWindows ++ [ctx1.nextWin] = [ctx.nextWin]
      rw [h1ow, h1nw]
      rfl
    · omega
    · show ctx1.uiEvents ++ [CtxEvent.createWin ctx1.nextWin,
        CtxEvent.presentWin ctx1.nextWin] = _
      rw [h1ev, h1nw, List.append_assoc]
      rfl
  · intro iid uri hnot
    unfold openPreferencesForInstance
    by_cases hf1 : (jsFalsyS iid || jsFalsyS uri) = true
    · rw [if_pos hf1]
    · rw [if_neg hf1]
      rw [if_pos (by simp [hnot])]

/-- Witness for C8 at a concrete context: preferences open for `Z`,
instance `Y` selected; opening for `Y` closes `Z`'s window first and the
invariant holds. -/
theorem c8_preferences_window_lifecycle_witness :
    prefsInvB c8ExCtx = true ∧
    (openPreferencesForInstance c8ExManager c8ExCtx (some "Y")
        (some "prefs.html")).fst.openWindows = [c8ExCtx.nextWin] ∧
    (openPreferencesForInstance c8ExManager c8ExCtx (some "Y")
        (some "prefs.html")).fst.uiEvents =
      c8ExCtx.uiEvents ++ [CtxEvent.destroyWin 4, CtxEvent.createWin 5,
        CtxEvent.presentWin 5] :=
  ⟨by decide,
    ((c8_preferences_window_lifecycle c8ExManager c8ExCtx "Y" "prefs.html"
      (by decide) (by decide)).2.2.2.1 4 c8ExInstanceY (by decide) (by decide)
      (by decide) (by decide) (by decide) (by decide)).2.2.1,
    by
      have := ((c8_preferences_window_lifecycle c8ExManager c8ExCtx "Y"
        "prefs.html" (by decide) (by decide)).2.2.2.1 4 c8ExInstanceY
        (by decide) (by decide) (by decide) (by decide) (by decide)
        (by decide)).2.2.2.2
      simpa using this⟩

/-! ## C4: loadState / exportState round trip -/

theorem instKeys_setInstanceFields (m : Manager) (id : String)
    (f : WInstance → WInstance)
    (hkey : ∀ i, (f i).instanceId = i.instanceId) :
    instKeys (setInstanceFields m id f).instances = instKeys m.instances := by
  unfold setInstanceFields instKeys
  simp only [List.map_map]
  apply List.map_congr_left
  intro i _
  by_cases hi : i.instanceId = id
  · simp [Function.comp, hi, hkey i]
  · simp [Function.comp, hi]

theorem find?_key_of_mem (l : List WInstance)
    (hnd : (instKeys l).Nodup) (i : WInstance) (hi : i ∈ l) :
    l.find? (fun j => j.instanceId == i.instanceId) = some i := by
  induction l with
  | nil => cases hi
  | cons a t ih =>
    simp only [instKeys, List.map_cons, List.nodup_cons] at hnd
    rcases List.mem_cons.mp hi with rfl | hit
    · exact @List.find?_cons_of_pos WInstance
        (fun j => j.instanceId == i.instanceId) i t (by simp)
    · have hna : ¬ a.instanceId = i.instanceId := by
        intro hh
        exact hnd.1 (hh ▸ List.mem_map_of_mem (fun j => j.instanceId) hit)
      rw [@List.find?_cons_of_neg WInstance
        (fun j => j.instanceId == i.instanceId) a t (by simp [hna])]
      exact ih hnd.2 hit

theorem unique_by_key (l : List WInstance) (hnd : (instKeys l).Nodup)
    (i j : WInstance) (hi : i ∈ l) (hj : j ∈ l)
    (hk : i.instanceId = j.instanceId) : i = j :=
  List.inj_on_of_nodup_map (by simpa [instKeys] using hnd) hi hj hk

theorem getInstance_some_facts (m : Manager) (x : String) (i : WInstance)
    (h : getInstance m x = some i) : i ∈ m.instances ∧ i.instanceId = x :=
  ⟨List.mem_of_find?_eq_some h, by
    have := List.find?_some h
    simpa using this⟩

theorem getInstance_of_mem (m : Manager)
    (hnd : (instKeys m.instances).Nodup) (i : WInstance)
    (hi : i ∈ m.instances) : getInstance m i.instanceId = some i :=
  find?_key_of_mem m.instances hnd i hi

theorem getInstance_none_iff (m : Manager) (x : String) :
    getInstance m x = none ↔ x ∉ instKeys m.instances := by
  unfold getInstance instKeys
  rw [List.find?_eq_none]
  constructor
  · intro h hmem
    rcases List.mem_map.mp hmem with ⟨i, hi, hk⟩
    exact h i hi (by simp [hk])
  · intro h i hi hp
    exact h (List.mem_map.mpr ⟨i, hi, by simpa using hp⟩)

theorem getInstance_set_projP (m : Manager) (id x : String)
    (f : WInstance → WInstance)
    (hkey : ∀ i, (f i).instanceId = i.instanceId)
    (hpp : ∀ i, projP (f i) = projP i) :
    (getInstance (setInstanceFields m id f) x).map projP =
      (getInstance m x).map projP := by
  by_cases hx : x = id
  · subst hx
    rw [getInstance_set_self _ _ _ hkey]
    rcases getInstance m x with _ | i
    · rfl
    · simp [hpp]
  · rw [getInstance_set_other _ _ _ _ hkey hx]

theorem positionInstanceActor_instances (m : Manager) (id : String) :
    (positionInstanceActor m id).instances = m.instances := by
  unfold positionInstanceActor attachToSurface
  repeat' split
  all_goals rfl

theorem positionInstanceActor_getInstance (m : Manager) (id x : String) :
    getInstance (positionInstanceActor m id) x = getInstance m x := by
  unfold getInstance
  rw [positionInstanceActor_instances]

theorem ensureInstanceActor_cases (m : Manager) (id : String) :
    ensureInstanceActor m id = m ∨
    ∃ f : WInstance → WInstance,
      (∀ i, (f i).instanceId = i.instanceId) ∧ (∀ i, projP (f i) = projP i) ∧
      ensureInstanceActor m id = setInstanceFields m id f := by
  unfold ensureInstanceActor
  split
  · exact Or.inl rfl
  · split
    · exact Or.inl rfl
    · split
      · exact Or.inl rfl
      · exact Or.inr ⟨fun i =>
          { i with actor := true, host := some (mkWidgetHostFor i) },
          fun i => rfl, fun i => rfl, rfl⟩

theorem ensureInstanceActor_other (m : Manager) (id x : String)
    (hx : ¬ x = id) :
    getInstance (ensureInstanceActor m id) x = getInstance m x := by
  rcases ensureInstanceActor_cases m id with h | ⟨f, hk, _, h⟩
  · rw [h]
  · rw [h, getInstance_set_other _ _ _ _ hk hx]

theorem ensureInstanceActor_keys (m : Manager) (id : String) :
    instKeys (ensureInstanceActor m id).instances = instKeys m.instances := by
  rcases ensureInstanceActor_cases m id with h | ⟨f, hk, _, h⟩
  · rw [h]
  · rw [h, instKeys_setInstanceFields _ _ _ hk]

theorem ensureInstanceActor_projP (m : Manager) (id x : String) :
    (getInstance (ensureInstanceActor m id) x).map projP =
      (getInstance m x).map projP := by
  rcases ensureInstanceActor_cases m id with h | ⟨f, hk, hpp, h⟩
  · rw [h]
  · rw [h, getInstance_set_projP _ _ _ _ hk hpp]

theorem applyStateEntry_updatePhase (m : Manager) (e : StateEntry) :
    ∃ m1 : Manager,
      (applyStateEntry m e = m1 ∨
        applyStateEntry m e =
          positionInstanceActor (ensureInstanceActor m1 (e.instanceId.getD ""))
            (e.instanceId.getD "")) ∧
      m1 = (match getInstance m (e.instanceId.getD "") with
        | some _ => setInstanceFields m (e.instanceId.getD "")
            (fun i => updateFromEntry i e)
        | none => { m with instances := m.instances ++ [freshFromEntry e] }) := by
  unfold applyStateEntry
  simp only []
  refine ⟨_, ?_, rfl⟩
  split
  · exact Or.inl rfl
  · split
    · exact Or.inl rfl
    · exact Or.inr rfl

theorem applyStateEntry_other (m : Manager) (e : StateEntry) (x : String)
    (hx : ¬ x = e.instanceId.getD "") :
    getInstance (applyStateEntry m e) x = getInstance m x := by
  obtain ⟨m1, hcase, hm1⟩ := applyStateEntry_updatePhase m e
  have hxx : ¬ (e.instanceId.getD "") = x := fun hh => hx hh.symm
  have hm1x : getInstance m1 x = getInstance m x := by
    rw [hm1]
    rcases hg : getInstance m (e.instanceId.getD "") with _ | i
    · simp only []
      show ((m.instances ++ [freshFromEntry e]).find?
        (fun i => i.instanceId == x)) = getInstance m x
      rw [List.find?_append]
      have hsing : List.find? (fun i => i.instanceId == x)
          [freshFromEntry e] = none := by
        simp [freshFromEntry, hxx]
      rw [hsing, Option.or_none]
      rfl
    · simp only []
      exact getInstance_set_other _ _ _ _ (fun i => rfl) hx
  rcases hcase with h | h
  · rw [h]; exact hm1x
  · rw [h, positionInstanceActor_getInstance,
      ensureInstanceActor_other _ _ _ hx, hm1x]

theorem applyStateEntry_keys (m : Manager) (e : StateEntry) :
    instKeys (applyStateEntry m e).instances =
      if (e.instanceId.getD "") ∈ instKeys m.instances then
        instKeys m.instances
      else instKeys m.instances ++ [e.instanceId.getD ""] := by
  obtain ⟨m1, hcase, hm1⟩ := applyStateEntry_updatePhase m e
  have hkeys1 : instKeys m1.instances =
      if (e.instanceId.getD "") ∈ instKeys m.instances then
        instKeys m.instances
      else instKeys m.instances ++ [e.instanceId.getD ""] := by
    rw [hm1]
    rcases hg : getInstance m (e.instanceId.getD "") with _ | i
    · have hnm : (e.instanceId.getD "") ∉ instKeys m.instances :=
        (getInstance_none_iff m _).mp hg
      simp only []
      rw [if_neg hnm]
      show instKeys (m.instances ++ [freshFromEntry e]) = _
      unfold instKeys
      simp [freshFromEntry]
    · have hmem : (e.instanceId.getD "") ∈ instKeys m.instances := by
        by_contra hn
        rw [← getInstance_none_iff] at hn
        rw [hg] at hn
        cases hn
      simp only []
      rw [if_pos hmem]
      exact instKeys_setInstanceFields _ _ _ (fun i => rfl)
  rcases hcase with h | h
  · rw [h]; exact hkeys1
  · rw [h]
    have h2 : instKeys (positionInstanceActor
        (ensureInstanceActor m1 (e.instanceId.getD ""))
        (e.instanceId.getD "")).instances =
        instKeys (ensureInstanceActor m1 (e.instanceId.getD "")).instances := by
      unfold instKeys
      rw [positionInstanceActor_instances]
    rw [h2, ensureInstanceActor_keys, hkeys1]

theorem applyStateEntry_at (m : Manager) (e : StateEntry) :
    ∃ j, getInstance (applyStateEntry m e) (e.instanceId.getD "") = some j ∧
      exportProj j = normalizeEntry e ∧
      j.isAddButton = (match getInstance m (e.instanceId.getD "") with
        | some i => i.isAddButton
        | none => false) := by
  obtain ⟨m1, hcase, hm1⟩ := applyStateEntry_updatePhase m e
  have h1 : ∃ j1, getInstance m1 (e.instanceId.getD "") = some j1 ∧
      exportProj j1 = normalizeEntry e ∧
      j1.isAddButton = (match getInstance m (e.instanceId.getD "") with
        | some i => i.isAddButton
        | none => false) := by
    rw [hm1]
    rcases hg : getInstance m (e.instanceId.getD "") with _ | i
    · simp only []
      refine ⟨freshFromEntry e, ?_, rfl, rfl⟩
      show ((m.instances ++ [freshFromEntry e]).find?
        (fun i => i.instanceId == e.instanceId.getD "")) = some (freshFromEntry e)
      rw [List.find?_append]
      have hnone : List.find? (fun i => i.instanceId == e.instanceId.getD "")
          m.instances = none := hg
      rw [hnone]
      simp [freshFromEntry]
    · simp only []
      rw [getInstance_set_self m (e.instanceId.getD "")
        (fun i => updateFromEntry i e) (fun i => rfl), hg]
      refine ⟨updateFromEntry i e, rfl, ?_, rfl⟩
      have hki : i.instanceId = e.instanceId.getD "" :=
        (getInstance_some_facts m _ i hg).2
      show exportProj (updateFromEntry i e) = normalizeEntry e
      unfold exportProj updateFromEntry normalizeEntry
      simp [hki]
  obtain ⟨j1, hj1, hja, hjb⟩ := h1
  rcases hcase with h | h
  · exact ⟨j1, h ▸ hj1, hja, hjb⟩
  · have hpp : (getInstance (applyStateEntry m e)
        (e.instanceId.getD "")).map projP =
        (getInstance m1 (e.instanceId.getD "")).map projP := by
      rw [h, positionInstanceActor_getInstance]
      exact ensureInstanceActor_projP m1 _ _
    rw [hj1] at hpp
    rcases hg2 : getInstance (applyStateEntry m e) (e.instanceId.getD "")
      with _ | j
    · rw [hg2] at hpp; cases hpp
    · rw [hg2] at hpp
      have hppj : projP j = projP j1 := by
        simpa using hpp
      refine ⟨j, rfl, ?_, ?_⟩
      · have := congrArg Prod.fst hppj
        simp only [projP] at this
        rw [this, hja]
      · have := congrArg Prod.snd hppj
        simp only [projP] at this
        rw [this, hjb]

theorem selectInstance_instances (m : Manager) (o : Option String) :
    (selectInstance m o).instances = m.instances := by
  unfold selectInstance raiseInstance raiseTagInSurface
  dsimp only
  repeat' split
  all_goals rfl

theorem insStable_perm {α : Type} (le : α → α → Bool) (x : α) :
    ∀ l : List α, List.Perm (insStable le x l) (x :: l) := by
  intro l
  induction l with
  | nil => exact List.Perm.refl _
  | cons y l ih =>
    unfold insStable
    by_cases h : le x y = true
    · rw [if_pos h]
    · rw [if_neg h]
      exact (ih.cons y).trans (List.Perm.swap x y l)

theorem stableSort_perm {α : Type} (le : α → α → Bool) :
    ∀ l : List α, List.Perm (stableSort le l) l := by
  intro l
  induction l with
  | nil => exact List.Perm.refl _
  | cons x l ih =>
    unfold stableSort
    exact (insStable_perm le x (stableSort le l)).trans (ih.cons x)

theorem instKeys_filter_nodup (l : List WInstance) (p : WInstance → Bool)
    (h : (instKeys l).Nodup) : (instKeys (l.filter p)).Nodup := by
  unfold instKeys at h ⊢
  exact List.Nodup.sublist ((l.filter_sublist).map _) h

theorem filter_map_keyed (id : String) (f : WInstance → WInstance)
    (hk : ∀ i, (f i).instanceId = i.instanceId) (l : List WInstance) :
    ((l.map (fun i => if i.instanceId == id then f i else i)).filter
        (fun i => !(i.instanceId == id))) =
      l.filter (fun i => !(i.instanceId == id)) := by
  induction l with
  | nil => rfl
  | cons i l ih =>
    by_cases h : i.instanceId = id
    · have hb : (i.instanceId == id) = true := by simp [h]
      have hbf : ((f i).instanceId == id) = true := by simp [hk i, h]
      simp only [List.map_cons, List.filter_cons, hb, hbf, if_pos,
        Bool.not_true, Bool.false_eq_true, if_false]
      exact ih
    · have hb : (i.instanceId == id) = false := by simp [h]
      simp only [List.map_cons, List.filter_cons, hb, Bool.not_false,
        if_true, if_false, Bool.false_eq_true]
      rw [ih]

theorem destroyHost_safe (h : HWHost) (hf : h.frame.isSome = true)
    (hw : h.webView.isSome = true) :
    destroyHost h =
      ({ h with
          destroyed := true, webView := none, frame := none,
          pendingPatches := [] }, none) := by
  obtain ⟨fr, hfr⟩ := Option.isSome_iff_exists.mp hf
  obtain ⟨wv, hwv⟩ := Option.isSome_iff_exists.mp hw
  unfold destroyHost
  simp only [hfr, hwv]

theorem removeActor_char (m : Manager) (id : String) (inst : WInstance)
    (hg : getInstance m id = some inst)
    (hs : hostDestroySafe inst.host) :
    ∃ m2, removeActor m id = (m2, none) ∧
      m2.instances = m.instances.filter (fun i => !(i.instanceId == id)) := by
  unfold removeActor
  simp only [hg]
  rcases hh : inst.host with _ | h
  · exact ⟨_, rfl, rfl⟩
  · rw [hh] at hs
    obtain ⟨hf, hw⟩ := hs
    simp only []
    rw [destroyHost_safe h hf hw]
    simp only []
    refine ⟨_, rfl, ?_⟩
    exact filter_map_keyed id
      (fun i => { i with
        host := some { h with
          destroyed := true, webView := none, frame := none,
          pendingPatches := [] } })
      (fun i => rfl) m.instances

theorem removeUnseenGo_cons (seen : List String) (m : Manager) (id : String)
    (rest : List String) :
    removeUnseenGo seen m (id :: rest) =
      (match getInstance m id with
      | none =>
        if seen.contains id then removeUnseenGo seen m rest
        else
          match removeActor m id with
          | (m2, _) => removeUnseenGo seen m2 rest
      | some inst =>
        if inst.isAddButton then removeUnseenGo seen m rest
        else if seen.contains id then removeUnseenGo seen m rest
        else
          match removeActor m id with
          | (m2, some err) => (m2, some err)
          | (m2, none) => removeUnseenGo seen m2 rest) := rfl

theorem getInstance_none_key (m : Manager) (id : String)
    (hg : getInstance m id = none) (i : WInstance) (hi : i ∈ m.instances) :
    ¬ i.instanceId = id := by
  intro hk
  have := List.find?_eq_none.mp hg i hi
  simp [hk] at this

theorem removeUnseenGo_char (seen : List String) :
    ∀ (ids : List String) (m : Manager),
    (instKeys m.instances).Nodup →
    (∀ i ∈ m.instances, i.isAddButton = false →
      seen.contains i.instanceId = false → hostDestroySafe i.host) →
    ∃ m3, removeUnseenGo seen m ids = (m3, none) ∧
      m3.instances = m.instances.filter
        (fun i => !(ids.contains i.instanceId) || i.isAddButton ||
          seen.contains i.instanceId) := by
  intro ids
  induction ids with
  | nil =>
    intro m hnd hsafe
    refine ⟨m, rfl, ?_⟩
    symm
    rw [List.filter_eq_self]
    intro i hi
    simp
  | cons id rest ih =>
    intro m hnd hsafe
    rw [removeUnseenGo_cons]
    rcases hg : getInstance m id with _ | inst
    · simp only []
      have hcong : m.instances.filter
          (fun i => !(rest.contains i.instanceId) || i.isAddButton ||
            seen.contains i.instanceId) =
        m.instances.filter
          (fun i => !((id :: rest).contains i.instanceId) || i.isAddButton ||
            seen.contains i.instanceId) := by
        apply List.filter_congr
        intro i hi
        have hkey : ¬ i.instanceId = id := getInstance_none_key m id hg i hi
        simp [hkey]
      by_cases hc : seen.contains id = true
      · rw [if_pos hc]
        obtain ⟨m3, hrec, hinst⟩ := ih m hnd hsafe
        refine ⟨m3, hrec, ?_⟩
        rw [hinst]
        exact hcong
      · rw [if_neg hc]
        have hra : removeActor m id = (m, none) := by
          unfold removeActor
          simp only [hg]
        simp only [hra]
        obtain ⟨m3, hrec, hinst⟩ := ih m hnd hsafe
        refine ⟨m3, hrec, ?_⟩
        rw [hinst]
        exact hcong
    · simp only []
      obtain ⟨hin, hkid⟩ := getInstance_some_facts m id inst hg
      by_cases hbtn : inst.isAddButton = true
      · rw [if_pos hbtn]
        obtain ⟨m3, hrec, hinst⟩ := ih m hnd hsafe
        refine ⟨m3, hrec, ?_⟩
        rw [hinst]
        apply List.filter_congr
        intro i hi
        by_cases hkey : i.instanceId = id
        · have hieq : i = inst :=
            unique_by_key m.instances hnd i inst hi hin (by rw [hkey, hkid])
          subst hieq
          simp [hbtn]
        · simp [hkey]
      · by_cases hc : seen.contains id = true
        · rw [if_neg hbtn, if_pos hc]
          obtain ⟨m3, hrec, hinst⟩ := ih m hnd hsafe
          refine ⟨m3, hrec, ?_⟩
          rw [hinst]
          apply List.filter_congr
          intro i hi
          by_cases hkey : i.instanceId = id
          · have hieq : i = inst :=
              unique_by_key m.instances hnd i inst hi hin (by rw [hkey, hkid])
            subst hieq
            have hcm : id ∈ seen := by simpa using hc
            simp [hkid, hcm]
          · simp [hkey]
        · rw [if_neg hbtn, if_neg hc]
          have hbtnf : inst.isAddButton = false := Bool.not_eq_true _ |>.mp hbtn
          have hcf : seen.contains inst.instanceId = false := by
            rw [hkid]
            exact Bool.not_eq_true _ |>.mp hc
          have hsafe_inst : hostDestroySafe inst.host := hsafe inst hin hbtnf hcf
          obtain ⟨m2, hra, hinst2⟩ := removeActor_char m id inst hg hsafe_inst
          simp only [hra]
          have hnd2 : (instKeys m2.instances).Nodup := by
            rw [hinst2]
            exact instKeys_filter_nodup _ _ hnd
          have hsafe2 : ∀ i ∈ m2.instances, i.isAddButton = false →
              seen.contains i.instanceId = false → hostDestroySafe i.host := by
            intro i hi hb hs2
            refine hsafe i ?_ hb hs2
            rw [hinst2] at hi
            exact List.mem_of_mem_filter hi
          obtain ⟨m3, hrec, hinst3⟩ := ih m2 hnd2 hsafe2
          refine ⟨m3, hrec, ?_⟩
          rw [hinst3, hinst2, List.filter_filter]
          apply List.filter_congr
          intro i hi
          by_cases hkey : i.instanceId = id
          · have hieq : i = inst :=
              unique_by_key m.instances hnd i inst hi hin (by rw [hkey, hkid])
            subst hieq
            have hcm : id ∉ seen := by simpa using Bool.not_eq_true _ |>.mp hc
            simp [hkid, hbtnf, hcm]
          · simp [hkey]

theorem loadFold_char :
    ∀ (entries : List StateEntry) (m : Manager) (s0 : List String),
    (∀ e ∈ entries, wfEntry e = true) →
    ((entries.map entryId).Nodup) →
    ((instKeys m.instances).Nodup) →
    (∀ e ∈ entries, ∀ i, getInstance m (entryId e) = some i →
        i.isAddButton = false) →
    (entries.foldl loadStateStep (m, s0)).snd = s0 ++ entries.map entryId ∧
    (instKeys (entries.foldl loadStateStep (m, s0)).fst.instances).Nodup ∧
    (∀ x, x ∉ entries.map entryId →
      getInstance (entries.foldl loadStateStep (m, s0)).fst x =
        getInstance m x) ∧
    (∀ e ∈ entries, ∃ j,
      getInstance (entries.foldl loadStateStep (m, s0)).fst (entryId e) =
        some j ∧
      exportProj j = normalizeEntry e ∧ j.isAddButton = false) ∧
    (∀ x, x ∈ instKeys (entries.foldl loadStateStep (m, s0)).fst.instances ↔
      x ∈ instKeys m.instances ∨ x ∈ entries.map entryId) := by
  intro entries
  induction entries with
  | nil =>
    intro m s0 _ _ hnd _
    exact ⟨by simp, hnd, fun x _ => rfl, by simp, fun x => by simp⟩
  | cons e rest ih =>
    intro m s0 hwf hnde hnd hbtn
    have htr : entryTruthyIds e = true := by
      have hwfe := hwf e (List.mem_cons_self e rest)
      unfold wfEntry at hwfe
      repeat rw [Bool.and_eq_true] at hwfe
      exact hwfe.1.1.1.1.1.1.1.1
    have hstep : loadStateStep (m, s0) e =
        (applyStateEntry m e, s0 ++ [entryId e]) := by
      unfold loadStateStep
      rw [htr]
      rfl
    rw [List.foldl_cons, hstep]
    have hwfr : ∀ e2 ∈ rest, wfEntry e2 = true :=
      fun e2 h2 => hwf e2 (List.mem_cons_of_mem e h2)
    have hnder : (rest.map entryId).Nodup := by
      have h0 := hnde
      rw [List.map_cons, List.nodup_cons] at h0
      exact h0.2
    have hnotin : entryId e ∉ rest.map entryId := by
      have h0 := hnde
      rw [List.map_cons, List.nodup_cons] at h0
      exact h0.1
    have hndk : (instKeys (applyStateEntry m e).instances).Nodup := by
      rw [applyStateEntry_keys]
      by_cases hmem : (e.instanceId.getD "") ∈ instKeys m.instances
      · rw [if_pos hmem]
        exact hnd
      · rw [if_neg hmem]
        simp [List.nodup_append, hnd, hmem]
    have hbtnr : ∀ e2 ∈ rest, ∀ i,
        getInstance (applyStateEntry m e) (entryId e2) = some i →
        i.isAddButton = false := by
      intro e2 h2 i hgi
      have hne : ¬ entryId e2 = entryId e :=
        fun hh => hnotin (hh ▸ List.mem_map_of_mem entryId h2)
      rw [applyStateEntry_other m e (entryId e2) hne] at hgi
      exact hbtn e2 (List.mem_cons_of_mem e h2) i hgi
    obtain ⟨ih1, ih2, ih3, ih4, ih5⟩ :=
      ih (applyStateEntry m e) (s0 ++ [entryId e]) hwfr hnder hndk hbtnr
    refine ⟨?_, ih2, ?_, ?_, ?_⟩
    · rw [ih1]
      simp [List.append_assoc]
    · intro x hx
      rw [List.map_cons] at hx
      have hx1 : ¬ x = entryId e := fun hh => hx (hh ▸ List.mem_cons_self _ _)
      have hx2 : x ∉ rest.map entryId := fun hh => hx (List.mem_cons_of_mem _ hh)
      rw [ih3 x hx2, applyStateEntry_other m e x hx1]
    · intro e2 h2
      rcases List.mem_cons.mp h2 with he | hr
      · subst he
        obtain ⟨j, hj, hpj, hb⟩ := applyStateEntry_at m e2
        refine ⟨j, ?_, hpj, ?_⟩
        · rw [ih3 (entryId e2) hnotin]
          exact hj
        · rw [hb]
          rcases hgm : getInstance m (e2.instanceId.getD "") with _ | i
          · simp only [hgm]
          · simp only [hgm]
            exact hbtn e2 (List.mem_cons_self e2 rest) i hgm
      · exact ih4 e2 hr
    · intro x
      rw [ih5 x, List.map_cons, applyStateEntry_keys]
      by_cases hmem : (e.instanceId.getD "") ∈ instKeys m.instances
      · rw [if_pos hmem]
        constructor
        · rintro (hx | hx)
          · exact Or.inl hx
          · exact Or.inr (List.mem_cons_of_mem _ hx)
        · rintro (hx | hx)
          · exact Or.inl hx
          · rcases List.mem_cons.mp hx with he | hr2
            · exact Or.inl (by rw [he]; exact hmem)
            · exact Or.inr hr2
      · rw [if_neg hmem]
        constructor
        · rintro (hx | hx)
          · rcases List.mem_append.mp hx with h1 | h1
            · exact Or.inl h1
            · have hxe : x = e.instanceId.getD "" := by simpa using h1
              exact Or.inr (by rw [hxe]; exact List.mem_cons_self _ _)
          · exact Or.inr (List.mem_cons_of_mem _ hx)
        · rintro (hx | hx)
          · exact Or.inl (List.mem_append.mpr (Or.inl hx))
          · rcases List.mem_cons.mp hx with he | hr2
            · refine Or.inl (List.mem_append.mpr (Or.inr ?_))
              rw [he]
              exact List.mem_singleton_self _
            · exact Or.inr hr2

theorem exportState_instances_perm (M : Manager) :
    List.Perm (exportState M).instances
      ((M.instances.filter (fun i => !i.isAddButton)).map exportProj) := by
  have h : (exportState M).instances =
      (sortedInstancesForExport M (computeZIndexByInstanceId M)).map
        exportProj := rfl
  rw [h]
  exact List.Perm.map exportProj (stableSort_perm _ _)

theorem exportProj_map_nodup (l : List WInstance) (h : (instKeys l).Nodup) :
    (l.map exportProj).Nodup := by
  apply List.Nodup.map_on
  · intro x hx y hy hxy
    exact unique_by_key l h x y hx hy (congrArg ExportEntry.instanceId hxy)
  · exact List.Nodup.of_map _ h

theorem normalizeEntry_map_nodup (entries : List StateEntry)
    (h : (entries.map entryId).Nodup) :
    (entries.map normalizeEntry).Nodup := by
  have h2 : ((entries.map normalizeEntry).map
      (fun x => x.instanceId)).Nodup := by
    rw [List.map_map]
    exact h
  exact List.Nodup.of_map _ h2

theorem loadState_char (m : Manager) (doc : StateDoc)
    (entries : List StateEntry)
    (hdoc : doc.instances = some entries) (m3 : Manager)
    (hrm : removeUnseen
        (entries.foldl loadStateStep
          ({ m with suppressStateEvents := true }, [])).fst
        (entries.foldl loadStateStep
          ({ m with suppressStateEvents := true }, [])).snd
      = (m3, none)) :
    (loadState m (some doc)).snd = none ∧
    (loadState m (some doc)).fst.instances = m3.instances := by
  unfold loadState
  simp only [hdoc]
  simp only [hrm]
  constructor
  · trivial
  · dsimp only
    split
    · exact selectInstance_instances m3 _
    · exact selectInstance_instances m3 _

/-- C4: for every well-formed persisted state document (each entry with
truthy ids and all persisted fields present, ids pairwise distinct, no
entry id colliding with a live add button, and every live host fully
constructed), `loadState` raises no error and an immediate
`exportState` returns exactly the documents entries — same instance
ids, widget ids, configs and normalized positions — as a permutation
(the export order is recomputed from monitor and stacking order). -/
theorem c4_load_export_round_trip (m : Manager) (doc : StateDoc)
    (entries : List StateEntry)
    (hdoc : doc.instances = some entries)
    (hwf : wfDoc entries)
    (hnd : (instKeys m.instances).Nodup)
    (hbtn : ∀ e ∈ entries, ∀ i, getInstance m (entryId e) = some i →
      i.isAddButton = false)
    (hsafe : ∀ i ∈ m.instances, hostDestroySafe i.host) :
    (loadState m (some doc)).snd = none ∧
    List.Perm (exportState (loadState m (some doc)).fst).instances
      (entries.map normalizeEntry) := by
  obtain ⟨hwfe, hnde⟩ := hwf
  obtain ⟨hf1, hf2, hf3, hf4, hf5⟩ :=
    loadFold_char entries { m with suppressStateEvents := true } [] hwfe hnde
      hnd (fun e he i hgi => hbtn e he i hgi)
  have hseen : (entries.foldl loadStateStep ({ m with suppressStateEvents := true }, [])).snd = entries.map entryId := by
    rw [hf1]
    rfl
  have hsafeF : ∀ i ∈ (entries.foldl loadStateStep ({ m with suppressStateEvents := true }, [])).fst.instances,
      i.isAddButton = false →
      ((entries.foldl loadStateStep ({ m with suppressStateEvents := true }, [])).snd).contains i.instanceId = false →
      hostDestroySafe i.host := by
    intro i hi hb hs2
    have hnotseen : i.instanceId ∉ entries.map entryId := by
      rw [hseen] at hs2
      simpa using hs2
    have hgF := getInstance_of_mem _ hf2 i hi
    rw [hf3 i.instanceId hnotseen] at hgF
    exact hsafe i (getInstance_some_facts m i.instanceId i hgF).1
  obtain ⟨m3, hrm, hinst3⟩ :=
    removeUnseenGo_char (entries.foldl loadStateStep ({ m with suppressStateEvents := true }, [])).snd
      (instKeys (entries.foldl loadStateStep ({ m with suppressStateEvents := true }, [])).fst.instances)
      (entries.foldl loadStateStep ({ m with suppressStateEvents := true }, [])).fst hf2 hsafeF
  have hrm2 : removeUnseen (entries.foldl loadStateStep ({ m with suppressStateEvents := true }, [])).fst (entries.foldl loadStateStep ({ m with suppressStateEvents := true }, [])).snd = (m3, none) := hrm
  obtain ⟨hsnd, hinstF⟩ := loadState_char m doc entries hdoc m3 hrm2
  refine ⟨hsnd, ?_⟩
  refine (exportState_instances_perm _).trans ?_
  rw [hinstF, hinst3]
  refine (List.perm_ext_iff_of_nodup
    (exportProj_map_nodup _
      (instKeys_filter_nodup _ _ (instKeys_filter_nodup _ _ hf2)))
    (normalizeEntry_map_nodup entries hnde)).mpr ?_
  intro x
  constructor
  · intro hx
    obtain ⟨i, hif, hpx⟩ := List.mem_map.mp hx
    obtain ⟨hif1, hbtn1⟩ := List.mem_filter.mp hif
    obtain ⟨hiF, hkeep⟩ := List.mem_filter.mp hif1
    have hbF : i.isAddButton = false := by simpa using hbtn1
    have hkmem : i.instanceId ∈ instKeys (entries.foldl loadStateStep ({ m with suppressStateEvents := true }, [])).fst.instances :=
      List.mem_map_of_mem _ hiF
    rw [hseen] at hkeep
    simp [hbF, hkmem] at hkeep
    obtain ⟨e, he, hek⟩ := hkeep
    obtain ⟨j, hj, hpj, hjb⟩ := hf4 e he
    have hgi : getInstance (entries.foldl loadStateStep ({ m with suppressStateEvents := true }, [])).fst i.instanceId = some i :=
      getInstance_of_mem _ hf2 i hiF
    rw [hek, hgi] at hj
    have hji : i = j := by injection hj
    refine List.mem_map.mpr ⟨e, he, ?_⟩
    rw [← hpx, ← hpj, hji]
  · intro hx
    obtain ⟨e, he, hex⟩ := List.mem_map.mp hx
    obtain ⟨j, hj, hpj, hjb⟩ := hf4 e he
    have hfacts := getInstance_some_facts _ _ j hj
    refine List.mem_map.mpr ⟨j, ?_, by rw [hpj]; exact hex⟩
    refine List.mem_filter.mpr ⟨List.mem_filter.mpr ⟨hfacts.1, ?_⟩, ?_⟩
    · have hjseen : j.instanceId ∈ entries.map entryId := by
        rw [hfacts.2]
        exact List.mem_map_of_mem _ he
      rw [hseen]
      simp [hjseen]
    · simp [hjb]

theorem c4_load_export_round_trip_witness :
    c4ExDoc.instances = some c4ExEntries ∧
    wfDoc c4ExEntries ∧
    (instKeys c4ExManager.instances).Nodup ∧
    (∀ e ∈ c4ExEntries, ∀ i,
      getInstance c4ExManager (entryId e) = some i →
      i.isAddButton = false) ∧
    (∀ i ∈ c4ExManager.instances, hostDestroySafe i.host) ∧
    ((loadState c4ExManager (some c4ExDoc)).snd = none ∧
      List.Perm
        (exportState (loadState c4ExManager (some c4ExDoc)).fst).instances
        (c4ExEntries.map normalizeEntry)) := by
  have h1 : c4ExDoc.instances = some c4ExEntries := rfl
  have h2 : wfDoc c4ExEntries := ⟨by decide, by decide⟩
  have h3 : (instKeys c4ExManager.instances).Nodup := by decide
  have h4 : ∀ e ∈ c4ExEntries, ∀ i,
      getInstance c4ExManager (entryId e) = some i →
      i.isAddButton = false := by
    intro e he i hgi
    have hnone : getInstance c4ExManager (entryId e) = none := by
      fin_cases he <;> rfl
    rw [hnone] at hgi
    cases hgi
  have h5 : ∀ i ∈ c4ExManager.instances, hostDestroySafe i.host := by
    intro i hi
    fin_cases hi <;> exact trivial
  exact ⟨h1, h2, h3, h4, h5,
    c4_load_export_round_trip c4ExManager c4ExDoc c4ExEntries h1 h2 h3 h4 h5⟩

end Ding
